import Mathlib

/-!
Shallow embedding of the compositing display stack of the repository
(src/kernel/ds_rust/src/lib.rs, src/kernel/wm_rust/src/lib.rs,
src/kernel/gpu_rust/src/lib.rs) and verification of the claims about it.

Conventions of the embedding:
  * Rust `u32` values are `Nat`; where a `u32` multiplication or cast can wrap,
    the wrap is written explicitly as `% 2 ^ 32`.
  * Rust `i32` values are `Int` (the source never exercises `i32` overflow on
    the paths modelled here); casts between `i32`, `u32` and `usize` are the
    explicit functions `u32ToI32`, `i32ToU32`, `toUsize`.
  * Pixel memories (framebuffer, backbuffer, the per-slot surface buffer pool,
    cursor backup) are total functions `Nat → Nat`; a Rust write loop whose
    iterations write pairwise distinct cells and read no cell they write is
    translated to the pointwise function it computes, and a loop with a
    `break` or with overwriting rows is translated to a fold over its rows.
  * Raw pointers to pool slots are slot indices: surface pointer = index into
    SURFACE_POOL, window pointer = index into WINDOW_POOL (the source keeps
    `id` equal to the slot index).  A dereference of a pointer to a freed slot
    is undefined behaviour in the source; the embedding returns the state
    unchanged on such accesses (marked by UB-guard comments); no theorem here
    depends on those branches.
  * Logging calls (`logger_rust_log*`, `log_debug`, ...) write to an external
    sink and change no modelled state; they are omitted.
  * Window fields `draw_callback` and `user_data` are never set on the
    modelled paths (`create_window` initialises them to null) and are omitted;
    `title` is kept as a byte list.
-/

/-- Cast a `u32` value (stored as `Nat`, reduced mod `2 ^ 32`) to `i32`. -/
def u32ToI32 (n : Nat) : Int :=
  let m : Nat := n % 2 ^ 32
  if m < 2 ^ 31 then (m : Int) else (m : Int) - 2 ^ 32

/-- Cast an `i32` value to `u32` (two-complement reinterpretation). -/
def i32ToU32 (i : Int) : Nat :=
  (i % (2 ^ 32 : Int)).toNat

/-- Cast an `i32` value to `usize` (64-bit two-complement reinterpretation),
as performed by `as usize` on a possibly negative coordinate. -/
def toUsize (i : Int) : Nat :=
  (i % (2 ^ 64 : Int)).toNat

/-- Rust `v.max(0) as usize` for an `i32` value `v`. -/
def clampLo (i : Int) : Nat :=
  (max i 0).toNat

/-- Wrapping `usize` subtraction `a - b` (two-complement, 64 bits). -/
def wsub (a b : Nat) : Nat :=
  (((a : Int) - (b : Int)) % (2 ^ 64 : Int)).toNat

/-- Lookup in a pool list of optional slots; out of range reads give `none`. -/
def lget (l : List (Option α)) (i : Nat) : Option α :=
  (l.get? i).getD none

/-- Write one row segment of `w` cells into a pixel memory: destination cells
`dOff .. dOff + w - 1` receive source cells `sOff ..`.  This is the effect of
one `copy_nonoverlapping(src_row, dst_row, w)` call. -/
def writeSeg (src : Nat → Nat) (dOff sOff w : Nat) (acc : Nat → Nat) : Nat → Nat :=
  fun idx => if dOff ≤ idx ∧ idx < dOff + w then src (sOff + (idx - dOff)) else acc idx

/-- DirtyRect from ds_rust: bounded rectangle plus validity bit. -/
structure DirtyRect where
  x : Int
  y : Int
  width : Nat
  height : Nat
  valid : Bool
deriving DecidableEq, Repr

/-- DirtyRect::union from ds_rust (self = `a`, other = `b`). -/
def rectUnion (a b : DirtyRect) : DirtyRect :=
  if ¬ b.valid then a
  else if ¬ a.valid then b
  else
    let left := min a.x b.x
    let top := min a.y b.y
    let right := max (a.x + (a.width : Int)) (b.x + (b.width : Int))
    let bottom := max (a.y + (a.height : Int)) (b.y + (b.height : Int))
    { x := left, y := top, width := (right - left).toNat, height := (bottom - top).toNat,
      valid := true }

/-- Limine framebuffer descriptor; only the fields the display stack consumes. -/
structure FrameBuf where
  width : Nat
  height : Nat
  pitch : Nat
deriving DecidableEq, Repr

/-- Surface from ds_rust; `id` is the slot index and is not stored, the buffer
pointer is the slot buffer in BUFFER_POOL and is represented implicitly. -/
structure Surface where
  x : Int
  y : Int
  width : Nat
  height : Nat
  zOrder : Int
deriving DecidableEq, Repr

/-- DisplayServer state from ds_rust, together with the statically allocated
BACKBUFFER, BUFFER_POOL, WALLPAPER_BUFFER memories and the framebuffer memory
the render step flushes into.  `gpuAvailable` models the external
`gpu_is_available()` flag of gpu_rust. -/
structure DsState where
  fb : Option FrameBuf
  pool : List (Option Surface)
  order : List Nat
  bufs : Nat → Nat → Nat
  desktopColor : Nat
  backbufferW : Nat
  backbufferH : Nat
  backbufferInitialized : Bool
  dirty : DirtyRect
  fullRedraw : Bool
  desktopCleared : Bool
  mouseX : Int
  mouseY : Int
  lastCursorX : Int
  lastCursorY : Int
  cursorBackup : Nat → Nat
  cursorBackupValid : Bool
  wallpaperW : Nat
  wallpaperH : Nat
  hasWallpaper : Bool
  wallpaper : Nat → Nat
  backbuffer : Nat → Nat
  fbMem : Nat → Nat
  gpuAvailable : Bool

/-- DisplayServer::new plus ds_init: fresh state; the static pools start
zeroed; backbuffer dimensions are taken from the framebuffer when present. -/
def dsInit (fb : Option FrameBuf) (gpu : Bool) : DsState :=
  { fb := fb
    pool := List.replicate 32 none
    order := []
    bufs := fun _ _ => 0
    desktopColor := 0x0d1117
    backbufferW := match fb with | some f => f.width % 2 ^ 32 | none => 0
    backbufferH := match fb with | some f => f.height % 2 ^ 32 | none => 0
    backbufferInitialized := false
    dirty := { x := 0, y := 0, width := 0, height := 0, valid := false }
    fullRedraw := true
    desktopCleared := false
    mouseX := 0
    mouseY := 0
    lastCursorX := -1
    lastCursorY := -1
    cursorBackup := fun _ => 0
    cursorBackupValid := false
    wallpaperW := 0
    wallpaperH := 0
    hasWallpaper := false
    wallpaper := fun _ => 0
    backbuffer := fun _ => 0
    fbMem := fun _ => 0
    gpuAvailable := gpu }

/-- mark_dirty from ds_rust. -/
def dsMarkDirty (s : DsState) (x y : Int) (w h : Nat) : DsState :=
  { s with dirty := rectUnion s.dirty { x := x, y := y, width := w, height := h, valid := true } }

/-- Index of the first free SURFACE_POOL slot, as found by the `for i in 0..32`
search in create_surface. -/
def findFreeSlot (pool : List (Option Surface)) : Option Nat :=
  (List.range 32).find? (fun i => (lget pool i).isNone)

/-- Z-order of the surface a slot id points at; a `None` entry compares as
`i32::MIN` in sort_surfaces_by_z_order. -/
def surfZ (pool : List (Option Surface)) (i : Nat) : Int :=
  match lget pool i with
  | some sf => sf.zOrder
  | none => -(2 ^ 31)

/-- Tail of one bubble sweep: `a` is the element currently carried right. -/
def bubbleAux (z : Nat → Int) (a : Nat) : List Nat → List Nat
  | [] => [a]
  | b :: t => if z a > z b then b :: bubbleAux z a t else a :: bubbleAux z b t

/-- One adjacent-swap sweep of the bubble sort in sort_surfaces_by_z_order. -/
def bubblePass (z : Nat → Int) : List Nat → List Nat
  | [] => []
  | a :: t => bubbleAux z a t

/-- sort_surfaces_by_z_order from ds_rust: `surface_count` bubble passes.  The
truncated inner bound of the source is equivalent to a full sweep because the
already sorted suffix admits no further swaps (swaps are on strict `>`). -/
def sortByZ (pool : List (Option Surface)) (l : List Nat) : List Nat :=
  (List.range l.length).foldl (fun acc _ => bubblePass (surfZ pool) acc) l

/-- create_surface from ds_rust.  Returns the new state and the created slot id
(surface pointer), or `none` (null) on failure.  Note that the slot buffer in
BUFFER_POOL is NOT written: the buffer keeps whatever the slot last held. -/
def dsCreateSurface (s : DsState) (x y : Int) (width height : Nat) (zOrder : Int) :
    DsState × Option Nat :=
  if 32 ≤ s.order.length then (s, none)
  else
    match findFreeSlot s.pool with
    | none => (s, none)
    | some slot =>
      if 800 * 600 < (width * height) % 2 ^ 32 then (s, none)
      else
        let pool' := s.pool.set slot (some { x := x, y := y, width := width, height := height,
                                             zOrder := zOrder })
        ({ s with pool := pool', order := sortByZ pool' (s.order ++ [slot]) }, some slot)

/-- destroy_surface from ds_rust: mark the surface rectangle dirty, remove the
pointer from the ordered array, free the pool slot. -/
def dsDestroySurface (s : DsState) (sid : Nat) : DsState :=
  match lget s.pool sid with
  | none => s  -- UB guard: the source dereferences the (dangling) surface pointer
  | some sf =>
    let s1 := dsMarkDirty s sf.x sf.y sf.width sf.height
    if sid ∈ s1.order then
      { s1 with order := s1.order.erase sid, pool := s1.pool.set sid none }
    else s1

/-- set_surface_position from ds_rust. -/
def dsSetSurfacePosition (s : DsState) (sid : Nat) (x y : Int) : DsState :=
  match lget s.pool sid with
  | none => s  -- UB guard
  | some sf =>
    let s1 := { s with pool := s.pool.set sid (some { sf with x := x, y := y }) }
    let s2 := dsMarkDirty s1 sf.x sf.y sf.width sf.height
    dsMarkDirty s2 x y sf.width sf.height

/-- set_surface_z_order from ds_rust. -/
def dsSetSurfaceZOrder (s : DsState) (sid : Nat) (z : Int) : DsState :=
  match lget s.pool sid with
  | none => s  -- UB guard
  | some sf =>
    let pool' := s.pool.set sid (some { sf with zOrder := z })
    let s1 := dsMarkDirty { s with pool := pool' } sf.x sf.y sf.width sf.height
    { s1 with order := sortByZ s1.pool s1.order }

/-- set_surface_size from ds_rust: refuses sizes whose (32-bit) pixel count
exceeds the slot buffer capacity; marks the old rectangle and the rectangle of
the new size at the old position dirty. -/
def dsSetSurfaceSize (s : DsState) (sid : Nat) (width height : Nat) : DsState :=
  match lget s.pool sid with
  | none => s  -- UB guard
  | some sf =>
    if 800 * 600 < (width * height) % 2 ^ 32 then s
    else
      let s1 := { s with pool := s.pool.set sid (some { sf with width := width, height := height }) }
      let s2 := dsMarkDirty s1 sf.x sf.y sf.width sf.height
      dsMarkDirty s2 sf.x sf.y width height

/-- get_surface_buffer validity: the returned pointer is the BUFFER_POOL slot
address, which is non-null exactly while the slot is live. -/
def dsGetSurfaceBufferValid (s : DsState) (sid : Nat) : Bool :=
  (lget s.pool sid).isSome

/-- update_cursor_position from ds_rust.  The old (last rendered) cursor
envelope is marked dirty only when the position changed, but the new envelope
is always marked dirty (source comment: always mark new cursor position as
dirty to ensure it is rendered). -/
def dsUpdateCursorPosition (s : DsState) (x y : Int) : DsState :=
  let s1 := if (s.mouseX ≠ x ∨ s.mouseY ≠ y) ∧ 0 ≤ s.lastCursorX ∧ 0 ≤ s.lastCursorY then
      dsMarkDirty s (s.lastCursorX - 1) (s.lastCursorY - 1) (12 + 2) (16 + 2)
    else s
  let s2 := { s1 with mouseX := x, mouseY := y }
  dsMarkDirty s2 (x - 1) (y - 1) (12 + 2) (16 + 2)

/-- Pixel region covered by the 14 by 18 cursor envelope rooted at cursor
position `(x, y)` (cursor plus one pixel outline frame). -/
def inCursorEnvelope (x y : Int) (px py : Nat) : Prop :=
  x - 1 ≤ (px : Int) ∧ (px : Int) ≤ x + 12 ∧ y - 1 ≤ (py : Int) ∧ (py : Int) ≤ y + 16

instance (x y : Int) (px py : Nat) : Decidable (inCursorEnvelope x y px py) := by
  unfold inCursorEnvelope; infer_instance

/-- CURSOR_BITMAP from ds_rust. -/
def cursorBitmap : List Nat :=
  [0b110000000000, 0b111000000000, 0b111100000000, 0b111110000000,
   0b111111000000, 0b111111100000, 0b111111110000, 0b111111111000,
   0b111111100000, 0b111111100000, 0b110110000000, 0b110011000000,
   0b100001100000, 0b000001100000, 0b000000110000, 0b000000110000]

/-- Pixel `(px, py)` carries a lit cursor bitmap cell for a cursor at `(x, y)`. -/
def cursorLitAt (x y : Int) (px py : Nat) : Prop :=
  ∃ r < 16, ∃ c < 12,
    (cursorBitmap.getD r 0) &&& (1 <<< (11 - c)) ≠ 0 ∧ (px : Int) = x + c ∧ (py : Int) = y + r

instance (x y : Int) (px py : Nat) : Decidable (cursorLitAt x y px py) := by
  unfold cursorLitAt; infer_instance

/-- The eight neighbour offsets used by the cursor outline pass. -/
def nbOffsets : List (Int × Int) :=
  [(-1, -1), (-1, 0), (-1, 1), (0, -1), (0, 1), (1, -1), (1, 0), (1, 1)]

/-- Pixel `(px, py)` is an outline neighbour of a lit cursor cell. -/
def cursorOutlineAt (x y : Int) (px py : Nat) : Prop :=
  ∃ d ∈ nbOffsets, cursorLitAt (x + d.1) (y + d.2) px py

instance (x y : Int) (px py : Nat) : Decidable (cursorOutlineAt x y px py) := by
  unfold cursorOutlineAt; infer_instance

/-- clear_cursor_from_backbuffer from ds_rust, as the resulting backbuffer:
with no valid backup the envelope is painted with the desktop colour, with a
valid backup the saved pixels are restored; writes are clipped to the
backbuffer bounds. -/
def clearCursorFromBackbuffer (s : DsState) (x y : Int) : Nat → Nat :=
  if ¬ s.cursorBackupValid then
    fun idx =>
      let py := idx / s.backbufferW
      let px := idx % s.backbufferW
      if px < s.backbufferW ∧ py < s.backbufferH ∧ inCursorEnvelope x y px py then s.desktopColor
      else s.backbuffer idx
  else
    fun idx =>
      let py := idx / s.backbufferW
      let px := idx % s.backbufferW
      if px < s.backbufferW ∧ py < s.backbufferH ∧ inCursorEnvelope x y px py then
        s.cursorBackup ((((py : Int) - (y - 1)).toNat) * 14 + (((px : Int) - (x - 1)).toNat))
      else s.backbuffer idx

/-- save_cursor_background_from_backbuffer from ds_rust, as the resulting
backup array: every backup cell is rewritten, from the backbuffer when the
sampled pixel is on screen and with the desktop colour otherwise. -/
def saveCursorBackup (s : DsState) (x y : Int) : Nat → Nat :=
  fun i =>
    if i < 18 * 14 then
      let row := i / 14
      let col := i % 14
      let px := x + col - 1
      let py := y + row - 1
      if 0 ≤ px ∧ 0 ≤ py ∧ px < (s.backbufferW : Int) ∧ py < (s.backbufferH : Int) then
        s.backbuffer (py.toNat * s.backbufferW + px.toNat)
      else s.desktopColor
    else s.cursorBackup i

/-- Cursor drawing of render_cursor_to_backbuffer: the outline pass writes the
outline colour at every in-bounds neighbour of a lit cell, then the colour
pass writes the cursor colour at every in-bounds lit cell. -/
def drawCursorOnBackbuffer (bb : Nat → Nat) (bw bh : Nat) (x y : Int) : Nat → Nat :=
  fun idx =>
    let py := idx / bw
    let px := idx % bw
    if px < bw ∧ py < bh ∧ cursorLitAt x y px py then 0xFFFFFF
    else if px < bw ∧ py < bh ∧ cursorOutlineAt x y px py then 0x000000
    else bb idx

/-- render_cursor_to_backbuffer from ds_rust. -/
def dsRenderCursor (s : DsState) : DsState :=
  let x := s.mouseX
  let y := s.mouseY
  let s1 := if 0 ≤ s.lastCursorX ∧ 0 ≤ s.lastCursorY ∧ (s.lastCursorX ≠ x ∨ s.lastCursorY ≠ y) then
      let sA := { s with backbuffer := clearCursorFromBackbuffer s s.lastCursorX s.lastCursorY,
                         cursorBackupValid := false }
      dsMarkDirty sA (s.lastCursorX - 1) (s.lastCursorY - 1) (12 + 2) (16 + 2)
    else s
  if 0 ≤ x ∧ 0 ≤ y ∧ x < u32ToI32 s1.backbufferW ∧ y < u32ToI32 s1.backbufferH then
    let s2 := { s1 with cursorBackup := saveCursorBackup s1 x y, cursorBackupValid := true }
    let s3 := { s2 with backbuffer :=
                  drawCursorOnBackbuffer s2.backbuffer s2.backbufferW s2.backbufferH x y }
    let s4 := dsMarkDirty s3 (x - 1) (y - 1) (12 + 2) (16 + 2)
    { s4 with lastCursorX := x, lastCursorY := y }
  else s1

/-- Fuelled row loop: `fuel` counts the remaining iterations. -/
def renderLoopAux (cond : Nat → Prop) [DecidablePred cond]
    (step : (Nat → Nat) → Nat → (Nat → Nat)) : Nat → Nat → (Nat → Nat) → (Nat → Nat)
  | 0, _, acc => acc
  | fuel + 1, r, acc => if cond r then renderLoopAux cond step fuel (r + 1) (step acc r) else acc

/-- Row loop with early exit: runs `step` for `r = r0, r0+1, ...` while
`r < sh` and `cond r` holds, stopping at the first failure of `cond`
(the `break` of the source loops). -/
def renderLoop (sh : Nat) (cond : Nat → Prop) [DecidablePred cond]
    (step : (Nat → Nat) → Nat → (Nat → Nat)) (r : Nat) (acc : Nat → Nat) : Nat → Nat :=
  renderLoopAux cond step (sh - r) r acc

/-- render_surface_to_backbuffer from ds_rust.  The surface origin is cast
with `as usize` (so a negative coordinate becomes a huge unsigned value), rows
stop at the first row whose target line `surf_y + y` is at or below the bottom
of the backbuffer, and each row copies `min(surf_w, bb_width - surf_x)`
(saturating) pixels. -/
def renderSurfaceToBackbuffer (bb : Nat → Nat) (bbW bbH : Nat) (sx sy : Int)
    (sw sh : Nat) (sbuf : Nat → Nat) : Nat → Nat :=
  let ux := toUsize sx
  let uy := toUsize sy
  renderLoop sh (fun r => (uy + r) % 2 ^ 64 < bbH)
    (fun acc r =>
      let vw := min sw (bbW - ux)
      if vw = 0 then acc
      else writeSeg sbuf (((uy + r) % 2 ^ 64) * bbW + ux) (r * sw) vw acc)
    0 bb

/-- surface_overlaps_dirty from ds_rust. -/
def surfaceOverlapsDirty (sf : Surface) (d : DirtyRect) : Prop :=
  d.valid = true ∧
    ¬ (sf.x + u32ToI32 sf.width ≤ d.x ∨ d.x + u32ToI32 d.width ≤ sf.x ∨
       sf.y + u32ToI32 sf.height ≤ d.y ∨ d.y + u32ToI32 d.height ≤ sf.y)

instance (sf : Surface) (d : DirtyRect) : Decidable (surfaceOverlapsDirty sf d) := by
  unfold surfaceOverlapsDirty; infer_instance

/-- clear_backbuffer from ds_rust (fill with the desktop colour; sizes beyond
the static backbuffer capacity leave it untouched). -/
def clearBackbuffer (s : DsState) : Nat → Nat :=
  let size := (s.backbufferW * s.backbufferH) % 2 ^ 32
  if 3840 * 2160 < size then s.backbuffer
  else fun i => if i < size then s.desktopColor else s.backbuffer i

/-- render_desktop_to_backbuffer from ds_rust: paint the dirty region
(clamped to the backbuffer) with the scaled wallpaper or the desktop colour. -/
def renderDesktopToBackbuffer (s : DsState) (d : DirtyRect) : Nat → Nat :=
  if ¬ d.valid then s.backbuffer
  else
    let sx := clampLo d.x
    let sy := clampLo d.y
    let ex := clampLo (min (d.x + u32ToI32 d.width) (u32ToI32 s.backbufferW))
    let ey := clampLo (min (d.y + u32ToI32 d.height) (u32ToI32 s.backbufferH))
    if s.hasWallpaper ∧ 0 < s.wallpaperW ∧ 0 < s.wallpaperH then
      fun idx =>
        let y := idx / s.backbufferW
        let x := idx % s.backbufferW
        let srcY := (y * s.wallpaperH) / s.backbufferH
        let srcX := (x * s.wallpaperW) / s.backbufferW
        let srcIdx := srcY * s.wallpaperW + srcX
        if x < s.backbufferW ∧ sy ≤ y ∧ y < ey ∧ sx ≤ x ∧ x < ex ∧ srcIdx < 1920 * 1080 then
          s.wallpaper srcIdx
        else s.backbuffer idx
    else
      fun idx =>
        let y := idx / s.backbufferW
        let x := idx % s.backbufferW
        if x < s.backbufferW ∧ sy ≤ y ∧ y < ey ∧ sx ≤ x ∧ x < ex then s.desktopColor
        else s.backbuffer idx

/-- Surface composition pass of render: every surface of the ordered sequence
that overlaps the dirty rectangle is copied into the backbuffer, bottom to
top. -/
def dsRenderSurfaces (s : DsState) (d : DirtyRect) : DsState :=
  if d.valid then
    s.order.foldl
      (fun st sid =>
        match lget st.pool sid with
        | none => st
        | some sf =>
          if surfaceOverlapsDirty sf d then
            let bb := renderSurfaceToBackbuffer st.backbuffer st.backbufferW st.backbufferH
              sf.x sf.y sf.width sf.height (st.bufs sid)
            { st with backbuffer := bb }
          else st) s
  else s

/-- gpu_blit from gpu_rust, acting at the given base offsets inside the
destination and source memories (the `dst`/`src` pointers of the call are
`base + offset` addresses).  The per-row offset `y * pitch` is a `u32`
multiplication and wraps at `2 ^ 32`. -/
def gpuBlitAt (dst : Nat → Nat) (dstPitch : Nat) (src : Nat → Nat) (srcPitch : Nat)
    (dstBase srcBase w h : Nat) : Nat → Nat :=
  (List.range h).foldl
    (fun acc y =>
      writeSeg src (dstBase + (y * dstPitch) % 2 ^ 32) (srcBase + (y * srcPitch) % 2 ^ 32) w acc)
    dst

/-- gpu_blit from gpu_rust with the buffers addressed from zero. -/
def gpuBlit (dst : Nat → Nat) (dstPitch : Nat) (src : Nat → Nat) (srcPitch : Nat)
    (w h : Nat) : Nat → Nat :=
  gpuBlitAt dst dstPitch src srcPitch 0 0 w h

/-- CPU fallback loop of copy_backbuffer_to_framebuffer: rows
`start_y .. start_y + h - 1`, each copying `w` pixels at column `start_x`,
with 64-bit (usize) index arithmetic. -/
def flushCpu (dst : Nat → Nat) (dstPitch : Nat) (src : Nat → Nat) (srcPitch : Nat)
    (sx sy w h : Nat) : Nat → Nat :=
  (List.range h).foldl
    (fun acc r =>
      if 0 < w then writeSeg src ((sy + r) * dstPitch + sx) ((sy + r) * srcPitch + sx) w acc
      else acc)
    dst

/-- Modelled from the spec (claim C9 reference point): the scalar row-by-row
reference copy, a `w` by `h` blit with 64-bit exact row offsets
`y * pitch`.  This is the CPU fallback loop of the display server rebased to
offset zero; the accelerated `gpuBlit` is compared against it. -/
def scalarBlit (dst : Nat → Nat) (dstPitch : Nat) (src : Nat → Nat) (srcPitch : Nat)
    (w h : Nat) : Nat → Nat :=
  (List.range h).foldl (fun acc y => writeSeg src (y * dstPitch) (y * srcPitch) w acc) dst

/-- copy_backbuffer_to_framebuffer from ds_rust: clamp the dirty rectangle to
the framebuffer, then either route the copy through gpu_blit (accelerated
backend present) or run the CPU fallback row loop. -/
def copyBackbufferToFramebuffer (s : DsState) (d : DirtyRect) : Nat → Nat :=
  match s.fb with
  | none => s.fbMem
  | some fb =>
    if ¬ d.valid then s.fbMem
    else
      let fbPitch := fb.pitch / 4
      let sx := clampLo d.x
      let sy := clampLo d.y
      let ex := clampLo (min (d.x + u32ToI32 d.width) (u32ToI32 fb.width))
      let ey := clampLo (min (d.y + u32ToI32 d.height) (u32ToI32 fb.height))
      let w := wsub ex sx
      let h := wsub ey sy
      if w = 0 ∨ h = 0 then s.fbMem
      else if s.gpuAvailable then
        gpuBlitAt s.fbMem (fbPitch % 2 ^ 32) s.backbuffer (s.backbufferW % 2 ^ 32)
          (sy * fbPitch + sx) (sy * s.backbufferW + sx) (w % 2 ^ 32) (h % 2 ^ 32)
      else
        flushCpu s.fbMem fbPitch s.backbuffer s.backbufferW sx sy w h

/-- Cursor-area merge at the end of render (the block after the cursor pass):
when the mouse position is on screen the cursor envelope is merged with the
dirty rectangle that was captured before the passes, discarding marks made by
the cursor pass itself; otherwise the captured rectangle is restored. -/
def dsRenderMerge (s : DsState) (d : DirtyRect) : DsState :=
  if 0 ≤ s.mouseX ∧ 0 ≤ s.mouseY ∧
     s.mouseX < u32ToI32 s.backbufferW ∧ s.mouseY < u32ToI32 s.backbufferH then
    let cx := max (s.mouseX - 1) 0
    let cy := max (s.mouseY - 1) 0
    if d.valid then
      let minX := min d.x cx
      let minY := min d.y cy
      let maxX := max (d.x + u32ToI32 d.width) (cx + 14)
      let maxY := max (d.y + u32ToI32 d.height) (cy + 18)
      { s with dirty := { x := minX, y := minY, width := (maxX - minX).toNat,
                          height := (maxY - minY).toNat, valid := true } }
    else
      { s with dirty := { x := cx, y := cy, width := 14, height := 18, valid := true } }
  else
    { s with dirty := d }

/-- render from ds_rust. -/
def dsRender (s0 : DsState) : DsState :=
  match s0.fb with
  | none => s0
  | some fb =>
    let s := if ¬ s0.backbufferInitialized then
        { s0 with backbufferW := fb.width % 2 ^ 32, backbufferH := fb.height % 2 ^ 32,
                  backbufferInitialized := true, fullRedraw := true }
      else s0
    let s := if s.fullRedraw ∨ ¬ s.desktopCleared then
        { s with backbuffer := clearBackbuffer s, desktopCleared := true, fullRedraw := false,
                 dirty := { x := 0, y := 0, width := s.backbufferW, height := s.backbufferH,
                            valid := true } }
      else s
    let d := s.dirty
    let s := if d.valid then { s with backbuffer := renderDesktopToBackbuffer s d } else s
    let s := dsRenderSurfaces s d
    let s := dsRenderCursor s
    let s := dsRenderMerge s d
    let s := if s.dirty.valid then { s with fbMem := copyBackbufferToFramebuffer s s.dirty } else s
    { s with dirty := { s.dirty with valid := false } }

/-- ResizeEdge from wm_rust. -/
inductive ResizeEdge where
  | none | top | bottom | left | right | topLeft | topRight | bottomLeft | bottomRight
deriving DecidableEq, Repr

/-- Window from wm_rust; `id` is the slot index and is not stored, `buffer`
(the cached surface buffer pointer) and the never-set `draw_callback` /
`user_data` fields are represented implicitly. -/
structure Window where
  x : Int
  y : Int
  width : Nat
  height : Nat
  title : List Nat
  flags : Nat
  focused : Bool
  invalidated : Bool
  surfaceId : Nat
  zOrder : Int
  minimized : Bool
  maximized : Bool
  origX : Int
  origY : Int
  origW : Nat
  origH : Nat
deriving DecidableEq, Repr

/-- WindowManager state from wm_rust (the framebuffer pointer it stores is the
same descriptor the display server holds and lives in `Sys.ds.fb`). -/
structure WmState where
  winPool : List (Option Window)
  order : List Nat
  focusedWindow : Option Nat
  draggingWindow : Option Nat
  dragOffX : Int
  dragOffY : Int
  resizingWindow : Option Nat
  resizeEdge : ResizeEdge
  resizeStartX : Int
  resizeStartY : Int
  resizeStartW : Nat
  resizeStartH : Nat
  lastMouseButton : Bool
  nextZ : Int
  minZ : Int

/-- Combined state: window manager plus the display server it calls into. -/
structure Sys where
  wm : WmState
  ds : DsState

/-- wm_init plus ds_init: fresh combined state. -/
def sysInit (fb : Option FrameBuf) (gpu : Bool) : Sys :=
  { wm := { winPool := List.replicate 32 none, order := [], focusedWindow := none,
            draggingWindow := none, dragOffX := 0, dragOffY := 0,
            resizingWindow := none, resizeEdge := ResizeEdge.none,
            resizeStartX := 0, resizeStartY := 0, resizeStartW := 0, resizeStartH := 0,
            lastMouseButton := false, nextZ := 0, minZ := -1000 },
    ds := dsInit fb gpu }

/-- Window pointed at by a window pointer (slot index). -/
def getWin (s : Sys) (i : Nat) : Option Window :=
  lget s.wm.winPool i

/-- In-place mutation of the window a pointer refers to; a dangling pointer
leaves the state unchanged (UB guard). -/
def modifyWin (s : Sys) (i : Nat) (f : Window → Window) : Sys :=
  match lget s.wm.winPool i with
  | none => s
  | some v => { s with wm := { s.wm with winPool := s.wm.winPool.set i (some (f v)) } }

/-- ds_mark_dirty as called from wm_rust. -/
def sysMarkDirty (s : Sys) (x y : Int) (w h : Nat) : Sys :=
  { s with ds := dsMarkDirty s.ds x y w h }

/-- Index of the first free WINDOW_POOL slot (create_window slot search). -/
def findFreeWinSlot (pool : List (Option Window)) : Option Nat :=
  (List.range 32).find? (fun i => (lget pool i).isNone)

/-- bring_to_front from wm_rust: move the window to the end of the ordered
array, give it the next monotonically increasing z value, push the z to the
display server, invalidate and mark dirty. -/
def bringToFront (s : Sys) (w : Nat) : Sys :=
  if w ∈ s.wm.order then
    let s1 := { s with wm := { s.wm with order := s.wm.order.erase w ++ [w] } }
    match getWin s1 w with
    | none => s1  -- UB guard
    | some win =>
      let z := s1.wm.nextZ
      let s2 := { s1 with wm := { s1.wm with nextZ := z + 1 } }
      let s3 := modifyWin s2 w (fun v => { v with zOrder := z })
      let s4 := { s3 with ds := dsSetSurfaceZOrder s3.ds win.surfaceId z }
      let s5 := modifyWin s4 w (fun v => { v with invalidated := true })
      sysMarkDirty s5 win.x win.y win.width win.height
  else s

/-- Focus transfer used by maximize_window and the click dispatch: unfocus and
invalidate the previously focused window when it is a different one, then
focus and invalidate the target. -/
def focusDance (s : Sys) (w : Nat) : Sys :=
  let s1 := match s.wm.focusedWindow with
    | some old =>
      if old ≠ w then
        match getWin s old with
        | some ow =>
          let sA := modifyWin s old (fun v => { v with focused := false, invalidated := true })
          sysMarkDirty sA ow.x ow.y ow.width ow.height
        | none => s  -- UB guard
      else s
    | none => s
  let s2 := { s1 with wm := { s1.wm with focusedWindow := some w } }
  modifyWin s2 w (fun v => { v with focused := true, invalidated := true })

/-- create_window from wm_rust.  Note that unlike every other focus change,
create_window does NOT unfocus the previously focused window before focusing
the new one. -/
def createWindow (s : Sys) (title : List Nat) (x y : Int) (width height : Nat) (flags : Nat) :
    Sys × Option Nat :=
  if 32 ≤ s.wm.order.length then (s, none)
  else
    match findFreeWinSlot s.wm.winPool with
    | none => (s, none)
    | some slot =>
      let z := s.wm.nextZ
      let s1 := { s with wm := { s.wm with nextZ := z + 1 } }
      let r := dsCreateSurface s1.ds x y width height z
      let s2 := { s1 with ds := r.1 }
      match r.2 with
      | none => (s2, none)
      | some surfId =>
        -- ds_get_surface_buffer on the fresh surface yields the non-null slot buffer
        let win : Window :=
          { x := x, y := y, width := width, height := height,
            title := (title.takeWhile (fun b => b ≠ 0)).take 63, flags := flags,
            focused := false, invalidated := true, surfaceId := surfId, zOrder := z,
            minimized := false, maximized := false,
            origX := x, origY := y, origW := width, origH := height }
        let wm3 := { s2.wm with winPool := s2.wm.winPool.set slot (some win),
                                order := s2.wm.order ++ [slot], focusedWindow := some slot }
        let s3 := { s2 with wm := wm3 }
        let s4 := modifyWin s3 slot (fun v => { v with focused := true, invalidated := true })
        (bringToFront s4 slot, some slot)

/-- destroy_window from wm_rust: mark dirty, destroy the surface, free the
pool slot, remove from the ordered array and clear the focus and drag
references.  The resize reference (`resizing_window`) is NOT cleared. -/
def destroyWindow (s : Sys) (w : Nat) : Sys :=
  match getWin s w with
  | none => s  -- UB guard
  | some win =>
    let s1 := sysMarkDirty s win.x win.y win.width win.height
    let s2 := { s1 with ds := dsDestroySurface s1.ds win.surfaceId }
    let s3 := if w < 32 then
        { s2 with wm := { s2.wm with winPool := s2.wm.winPool.set w none } }
      else s2
    if w ∈ s3.wm.order then
      let wmA := { s3.wm with order := s3.wm.order.erase w }
      let wmB := if wmA.focusedWindow = some w then { wmA with focusedWindow := none } else wmA
      let wmC := if wmB.draggingWindow = some w then { wmB with draggingWindow := none } else wmB
      { s3 with wm := wmC }
    else s3

/-- invalidate_window from wm_rust. -/
def invalidateWindow (s : Sys) (w : Nat) : Sys :=
  match getWin s w with
  | none => s  -- UB guard
  | some win =>
    sysMarkDirty (modifyWin s w (fun v => { v with invalidated := true }))
      win.x win.y win.width win.height

/-- minimize_window from wm_rust. -/
def minimizeWindow (s : Sys) (w : Nat) : Sys :=
  match getWin s w with
  | none => s  -- UB guard
  | some win =>
    if win.minimized then s
    else
      let z := s.wm.minZ
      let s1 := modifyWin s w (fun v => { v with minimized := true, zOrder := z })
      let s2 := { s1 with wm := { s1.wm with minZ := z - 1 } }
      let s3 := { s2 with ds := dsSetSurfaceZOrder s2.ds win.surfaceId z }
      let s4 := sysMarkDirty s3 win.x win.y win.width win.height
      if s4.wm.focusedWindow = some w then
        let s5 := modifyWin s4 w (fun v => { v with focused := false })
        { s5 with wm := { s5.wm with focusedWindow := none } }
      else s4

/-- restore_window from wm_rust.  The previously focused window is unfocused
without a same-window guard. -/
def restoreWindow (s : Sys) (w : Nat) : Sys :=
  match getWin s w with
  | none => s  -- UB guard
  | some win =>
    if ¬ win.minimized then s
    else
      let z := s.wm.nextZ
      let s1 := modifyWin s w (fun v => { v with minimized := false, zOrder := z })
      let s2 := { s1 with wm := { s1.wm with nextZ := z + 1 } }
      let s3 := { s2 with ds := dsSetSurfaceZOrder s2.ds win.surfaceId z }
      let s4 := sysMarkDirty s3 win.x win.y win.width win.height
      let s5 := match s4.wm.focusedWindow with
        | some old =>
          match getWin s4 old with
          | some ow =>
            let sA := modifyWin s4 old (fun v => { v with focused := false, invalidated := true })
            sysMarkDirty sA ow.x ow.y ow.width ow.height
          | none => s4  -- UB guard
        | none => s4
      let s6 := { s5 with wm := { s5.wm with focusedWindow := some w } }
      let s7 := modifyWin s6 w (fun v => { v with focused := true, invalidated := true })
      bringToFront s7 w

/-- Target size computed by maximize_window: the framebuffer size, scaled down
by the integer aspect arithmetic of the source when its (32-bit) pixel count
exceeds the slot buffer capacity of 800 * 600 cells. -/
def maximizeTargetSize (fbW fbH : Nat) : Nat × Nat :=
  let p1 :=
    if 800 * 600 < (fbW * fbH) % 2 ^ 32 then
      let aspectNum := fbW * 1000
      let aspectDen := fbH
      if fbH < fbW then
        let nw := 800
        let nh := ((800 * aspectDen) / aspectNum) % 2 ^ 32
        if 800 * 600 < (nw * nh) % 2 ^ 32 then
          let nh2 := 600
          let nw2 := ((600 * aspectNum) / aspectDen) % 2 ^ 32
          if 800 * 600 < (nw2 * nh2) % 2 ^ 32 then (min 800 fbW, min 600 fbH) else (nw2, nh2)
        else (nw, nh)
      else
        let nh := 600
        let nw := ((600 * aspectNum) / aspectDen) % 2 ^ 32
        if 800 * 600 < (nw * nh) % 2 ^ 32 then
          let nw2 := 800
          let nh2 := ((800 * aspectDen) / aspectNum) % 2 ^ 32
          if 800 * 600 < (nw2 * nh2) % 2 ^ 32 then (min 800 fbW, min 600 fbH) else (nw2, nh2)
        else (nw, nh)
    else (fbW, fbH)
  if 800 * 600 < (p1.1 * p1.2) % 2 ^ 32 then (800, 600) else p1

/-- Tail of maximize_window from wm_rust, from the surface-position update
onward (`s4` is the state after the optional restore of a minimized window,
`sid` the surface pointer of the window, `newW`, `newH` the target size and
`px`, `py` the target position computed by the head of the function). -/
def maximizeFinish (s4 : Sys) (w sid : Nat) (newW newH : Nat) (px py : Int) : Sys :=
  let s5 := modifyWin s4 w (fun v =>
    { v with width := newW, height := newH, maximized := true, invalidated := true })
  let s6 := { s5 with ds := dsSetSurfacePosition s5.ds sid px py }
  let s7 := { s6 with ds := dsSetSurfaceSize s6.ds sid newW newH }
  -- buffer pointer refresh (ds_get_surface_buffer): no modelled state change
  match lget s7.ds.pool sid with
  | none => s7  -- UB guard: the surface dimension check reads a freed slot
  | some surf =>
    if surf.width ≠ newW ∨ surf.height ≠ newH then
      -- size mismatch: revert to the saved geometry, drop maximized
      let s8 := modifyWin s7 w (fun v =>
        { v with x := v.origX, y := v.origY, width := v.origW, height := v.origH,
                 maximized := false })
      match getWin s8 w with
      | none => s8
      | some vr =>
        let s9 := { s8 with ds := dsSetSurfaceSize s8.ds sid vr.width vr.height }
        let s10 := { s9 with ds := dsSetSurfacePosition s9.ds sid vr.x vr.y }
        modifyWin s10 w (fun v => { v with invalidated := true })
    else
      -- a position mismatch only logs; the buffer pointer of a live slot is non-null
      let s8 := bringToFront s7 w
      let s9 := focusDance s8 w
      let s10 := modifyWin s9 w (fun v => { v with minimized := false })
      let s11 := match getWin s10 w with
        | some vc => sysMarkDirty s10 vc.x vc.y vc.width vc.height
        | none => s10
      let s12 := { s11 with ds := dsRender s11.ds }
      if (match getWin s12 w with | some v => !v.invalidated | none => false) then
        modifyWin s12 w (fun v => { v with invalidated := true })
      else s12

/-- maximize_window from wm_rust. -/
def maximizeWindow (s : Sys) (w : Nat) : Sys :=
  match s.ds.fb with
  | none => s  -- UB guard: the source dereferences the framebuffer pointer
  | some fb =>
    match getWin s w with
    | none => s  -- UB guard
    | some win0 =>
      if win0.maximized then s
      else
        let s1 := modifyWin s w (fun v =>
          { v with origX := v.x, origY := v.y, origW := v.width, origH := v.height })
        let fbW := fb.width % 2 ^ 32
        let fbH := fb.height % 2 ^ 32
        let newW := (maximizeTargetSize fbW fbH).1
        let newH := (maximizeTargetSize fbW fbH).2
        let s2 := sysMarkDirty s1 win0.x win0.y win0.width win0.height
        let pxy : Int × Int :=
          if newW = fbW ∧ newH = fbH then (0, 0)
          else (max (Int.tdiv (u32ToI32 fbW - u32ToI32 newW) 2) 0,
                max (Int.tdiv (u32ToI32 fbH - u32ToI32 newH) 2) 0)
        let px := pxy.1
        let py := pxy.2
        let s3 := modifyWin s2 w (fun v => { v with x := px, y := py })
        if 800 * 600 < (newW * newH) % 2 ^ 32 then s3  -- double-check early return
        else
          let s4 := if (match getWin s3 w with | some v => v.minimized | none => false) then
              restoreWindow s3 w
            else s3
          maximizeFinish s4 w win0.surfaceId newW newH px py

/-- unmaximize_window from wm_rust: restore the saved geometry exactly. -/
def unmaximizeWindow (s : Sys) (w : Nat) : Sys :=
  match getWin s w with
  | none => s  -- UB guard
  | some win =>
    if ¬ win.maximized then s
    else
      let s1 := sysMarkDirty s win.x win.y win.width win.height
      let s2 := modifyWin s1 w (fun v =>
        { v with x := v.origX, y := v.origY, width := v.origW, height := v.origH,
                 maximized := false })
      let s3 := { s2 with ds := dsSetSurfaceSize s2.ds win.surfaceId win.origW win.origH }
      let s4 := { s3 with ds := dsSetSurfacePosition s3.ds win.surfaceId win.origX win.origY }
      -- buffer pointer refresh: no modelled state change
      let s5 := modifyWin s4 w (fun v => { v with invalidated := true })
      sysMarkDirty s5 win.origX win.origY win.origW win.origH

/-- clear_window from wm_rust: fill the window buffer (the surface slot buffer,
whose cached pointer stays valid even if the surface was destroyed) with a
colour, capped at the slot buffer capacity. -/
def clearWindow (s : Sys) (w : Nat) (color : Nat) : Sys :=
  match getWin s w with
  | none => s  -- UB guard
  | some win =>
    let requested := (win.width * win.height) % 2 ^ 32
    let size := if 800 * 600 < requested then 800 * 600 else requested
    let bufs' := fun sl i =>
      if sl = win.surfaceId ∧ i < size then color else s.ds.bufs sl i
    { s with ds := { s.ds with bufs := bufs' } }

/-- get_resize_edge from wm_rust. -/
def getResizeEdgeAt (win : Window) (mx my : Int) : ResizeEdge :=
  if win.flags &&& 0x04 = 0 then ResizeEdge.none
  else if win.maximized then ResizeEdge.none
  else
    let relX := mx - win.x
    let relY := my - win.y
    let ww := u32ToI32 win.width
    let wh := u32ToI32 win.height
    let onLeft := decide (relX < 8)
    let onRight := decide (ww - 8 ≤ relX)
    let onTop := decide (relY < 8)
    let onBottom := decide (wh - 8 ≤ relY)
    if relY < 20 then ResizeEdge.none
    else
      match onTop, onBottom, onLeft, onRight with
      | true, false, true, false => ResizeEdge.topLeft
      | true, false, false, true => ResizeEdge.topRight
      | false, true, true, false => ResizeEdge.bottomLeft
      | false, true, false, true => ResizeEdge.bottomRight
      | true, false, false, false => ResizeEdge.top
      | false, true, false, false => ResizeEdge.bottom
      | false, false, true, false => ResizeEdge.left
      | false, false, false, true => ResizeEdge.right
      | _, _, _, _ => ResizeEdge.none

/-- Kinds of title bar control buttons. -/
inductive BKind where
  | closeB | maxB | minB
deriving DecidableEq, Repr

/-- Control buttons drawn into the title bar by update (wm_rust lines
1231..1252), as the list of (kind, x offset inside the window) pairs; every
button box is drawn at `(x, 2)` with size 16 by 16.  The close button is drawn
only for CLOSABLE (0x02) windows; the maximize and minimize buttons are drawn
unconditionally; after each drawn button `button_x` moves left by 20. -/
def buttonsDrawn (flags : Nat) (width : Nat) : List (BKind × Int) :=
  let bx0 := u32ToI32 width - 18
  if flags &&& 0x02 ≠ 0 then
    [(BKind.closeB, bx0), (BKind.maxB, bx0 - 20), (BKind.minB, bx0 - 40)]
  else
    [(BKind.maxB, bx0), (BKind.minB, bx0 - 20)]

/-- Control button hit test of handle_mouse (wm_rust lines 1102..1147): the
close box is tested only for CLOSABLE windows, then the maximize box, then the
minimize box, each 16 by 16 with a 2 pixel top inset, packed right to left
with `button_x` moving by 20 per tested-or-skipped close button. -/
def buttonHit (flags : Nat) (wx wy : Int) (width : Nat) (mx my : Int) : Option BKind :=
  let bx0 := wx + u32ToI32 width - 18
  if flags &&& 0x02 ≠ 0 ∧ bx0 ≤ mx ∧ mx < bx0 + 16 ∧ wy + 2 ≤ my ∧ my < wy + 2 + 16 then
    some BKind.closeB
  else
    let bx1 := if flags &&& 0x02 ≠ 0 then bx0 - 20 else bx0
    if bx1 ≤ mx ∧ mx < bx1 + 16 ∧ wy + 2 ≤ my ∧ my < wy + 2 + 16 then some BKind.maxB
    else
      let bx2 := bx1 - 20
      if bx2 ≤ mx ∧ mx < bx2 + 16 ∧ wy + 2 ≤ my ∧ my < wy + 2 + 16 then some BKind.minB
      else none

/-- Resize continuation of handle_mouse (button held with `resizing_window`
set): compute the new geometry from the edge, the starting geometry and mouse
deltas, clamp to the minimum size 100 by 100 and the framebuffer, then update
window and surface and force a render when anything changed. -/
def resizeContinue (s : Sys) (rw : Nat) (mx my : Int) : Sys :=
  match s.ds.fb with
  | none => s  -- UB guard: the source dereferences the framebuffer pointer
  | some fb =>
    match getWin s rw with
    | none => s  -- UB guard: dangling resizing_window pointer
    | some win =>
      let fbW := u32ToI32 fb.width
      let fbH := u32ToI32 fb.height
      let startW := s.wm.resizeStartW
      let startH := s.wm.resizeStartH
      let dx := mx - s.wm.resizeStartX
      let dy := my - s.wm.resizeStartY
      let g : Int × Int × Nat × Nat :=
        match s.wm.resizeEdge with
        | ResizeEdge.right =>
          let nw1 := i32ToU32 (u32ToI32 startW + dx)
          let nw2 := if nw1 < 100 then 100 else nw1
          let nw3 := if fbW < win.x + u32ToI32 nw2 then i32ToU32 (fbW - win.x) else nw2
          (win.x, win.y, nw3, startH)
        | ResizeEdge.left =>
          let newLeft := s.wm.resizeStartX + dx
          let wa : Nat × Int :=
            if newLeft < 0 then (i32ToU32 (u32ToI32 startW - newLeft), 0)
            else (i32ToU32 (u32ToI32 startW - dx), newLeft)
          let wb : Nat × Int :=
            if wa.1 < 100 then (100, win.x + u32ToI32 win.width - 100) else wa
          (wb.2, win.y, wb.1, startH)
        | ResizeEdge.bottom =>
          let nh1 := i32ToU32 (u32ToI32 startH + dy)
          let nh2 := if nh1 < 100 then 100 else nh1
          let nh3 := if fbH < win.y + u32ToI32 nh2 then i32ToU32 (fbH - win.y) else nh2
          (win.x, win.y, startW, nh3)
        | ResizeEdge.top =>
          let newTop := s.wm.resizeStartY + dy
          let ha : Nat × Int :=
            if newTop < 0 then (i32ToU32 (u32ToI32 startH - newTop), 0)
            else (i32ToU32 (u32ToI32 startH - dy), newTop)
          let hb : Nat × Int :=
            if ha.1 < 100 then (100, win.y + u32ToI32 win.height - 100) else ha
          (win.x, hb.2, startW, hb.1)
        | ResizeEdge.bottomRight =>
          let nw1 := i32ToU32 (u32ToI32 startW + dx)
          let nh1 := i32ToU32 (u32ToI32 startH + dy)
          let nw2 := if nw1 < 100 then 100 else nw1
          let nh2 := if nh1 < 100 then 100 else nh1
          let nw3 := if fbW < win.x + u32ToI32 nw2 then i32ToU32 (fbW - win.x) else nw2
          let nh3 := if fbH < win.y + u32ToI32 nh2 then i32ToU32 (fbH - win.y) else nh2
          (win.x, win.y, nw3, nh3)
        | ResizeEdge.bottomLeft =>
          let newLeft := s.wm.resizeStartX + dx
          let wa : Nat × Int :=
            if newLeft < 0 then (i32ToU32 (u32ToI32 startW - newLeft), 0)
            else (i32ToU32 (u32ToI32 startW - dx), newLeft)
          let nh1 := i32ToU32 (u32ToI32 startH + dy)
          let wb : Nat × Int :=
            if wa.1 < 100 then (100, win.x + u32ToI32 win.width - 100) else wa
          let nh2 := if nh1 < 100 then 100 else nh1
          let nh3 := if fbH < win.y + u32ToI32 nh2 then i32ToU32 (fbH - win.y) else nh2
          (wb.2, win.y, wb.1, nh3)
        | ResizeEdge.topRight =>
          let nw1 := i32ToU32 (u32ToI32 startW + dx)
          let newTop := s.wm.resizeStartY + dy
          let ha : Nat × Int :=
            if newTop < 0 then (i32ToU32 (u32ToI32 startH - newTop), 0)
            else (i32ToU32 (u32ToI32 startH - dy), newTop)
          let nw2 := if nw1 < 100 then 100 else nw1
          let hb : Nat × Int :=
            if ha.1 < 100 then (100, win.y + u32ToI32 win.height - 100) else ha
          let nw3 := if fbW < win.x + u32ToI32 nw2 then i32ToU32 (fbW - win.x) else nw2
          (win.x, hb.2, nw3, hb.1)
        | ResizeEdge.topLeft =>
          let newLeft := s.wm.resizeStartX + dx
          let newTop := s.wm.resizeStartY + dy
          let wa : Nat × Int :=
            if newLeft < 0 then (i32ToU32 (u32ToI32 startW - newLeft), 0)
            else (i32ToU32 (u32ToI32 startW - dx), newLeft)
          let ha : Nat × Int :=
            if newTop < 0 then (i32ToU32 (u32ToI32 startH - newTop), 0)
            else (i32ToU32 (u32ToI32 startH - dy), newTop)
          let wb : Nat × Int :=
            if wa.1 < 100 then (100, win.x + u32ToI32 win.width - 100) else wa
          let hb : Nat × Int :=
            if ha.1 < 100 then (100, win.y + u32ToI32 win.height - 100) else ha
          (wb.2, hb.2, wb.1, hb.1)
        | ResizeEdge.none => (win.x, win.y, startW, startH)
      let nX := g.1
      let nY := g.2.1
      let nW := g.2.2.1
      let nH := g.2.2.2
      if win.x ≠ nX ∨ win.y ≠ nY ∨ win.width ≠ nW ∨ win.height ≠ nH then
        let sA := sysMarkDirty s win.x win.y win.width win.height
        let sB := modifyWin sA rw (fun v => { v with x := nX, y := nY, width := nW, height := nH })
        let sC := { sB with ds := dsSetSurfaceSize sB.ds win.surfaceId nW nH }
        let sD := { sC with ds := dsSetSurfacePosition sC.ds win.surfaceId nX nY }
        let sE := modifyWin sD rw (fun v => { v with invalidated := true })
        let sF := sysMarkDirty sE nX nY nW nH
        { sF with ds := dsRender sF.ds }
      else s

/-- Drag continuation of handle_mouse (button held with `dragging_window`
set): move the window to mouse minus drag offset, clamp to the framebuffer
unless maximized, keep it on top, update the surface position and force a
render when the position changed. -/
def dragContinue (s : Sys) (dw : Nat) (mx my : Int) : Sys :=
  match getWin s dw with
  | none => s  -- UB guard: dangling dragging_window pointer
  | some win =>
    let x0 := mx - s.wm.dragOffX
    let y0 := my - s.wm.dragOffY
    let nxy : Int × Int :=
      if ¬ win.maximized then
        match s.ds.fb with
        | none => (x0, y0)  -- UB guard: the source dereferences fb for clamping
        | some fb =>
          let x1 := if x0 < 0 then 0 else x0
          let y1 := if y0 < 0 then 0 else y0
          let x2 := if u32ToI32 fb.width < x1 + u32ToI32 win.width then
              u32ToI32 fb.width - u32ToI32 win.width else x1
          let y2 := if u32ToI32 fb.height < y1 + u32ToI32 win.height then
              u32ToI32 fb.height - u32ToI32 win.height else y1
          (x2, y2)
      else (x0, y0)
    let nx := nxy.1
    let ny := nxy.2
    let s1 := modifyWin s dw (fun v => { v with x := nx, y := ny })
    if win.x ≠ nx ∨ win.y ≠ ny then
      let s2 := if win.zOrder < s1.wm.nextZ - 1 then
          let z := s1.wm.nextZ
          let sA := modifyWin s1 dw (fun v => { v with zOrder := z })
          let sB := { sA with wm := { sA.wm with nextZ := z + 1 } }
          { sB with ds := dsSetSurfaceZOrder sB.ds win.surfaceId z }
        else s1
      let s3 := { s2 with ds := dsSetSurfacePosition s2.ds win.surfaceId nx ny }
      { s3 with ds := dsRender s3.ds }
    else s1

/-- Click dispatch of handle_mouse on a just-pressed button: walk the windows
from top to bottom (the reversed ordered array), skip minimized windows, and
within the first window containing the pointer dispatch to resize start,
control buttons, title bar (focus, bring to front, start drag) or content
(focus and bring to front). -/
def dispatchClick (s : Sys) (mx my : Int) : List Nat → Sys
  | [] => s
  | w :: rest =>
    match getWin s w with
    | none => dispatchClick s mx my rest
    | some win =>
      if win.minimized then dispatchClick s mx my rest
      else
        let wx := win.x
        let wy := win.y
        let ww := u32ToI32 win.width
        let wh := u32ToI32 win.height
        if wx ≤ mx ∧ mx < wx + ww ∧ wy ≤ my ∧ my < wy + wh then
          let edge := if wy + 20 ≤ my then getResizeEdgeAt win mx my else ResizeEdge.none
          if edge ≠ ResizeEdge.none then
            let wm1 := { s.wm with resizingWindow := some w, resizeEdge := edge,
                                   resizeStartX := mx, resizeStartY := my,
                                   resizeStartW := win.width, resizeStartH := win.height }
            let s1 := { s with wm := wm1 }
            let s2 := focusDance s1 w
            bringToFront s2 w
          else
            match buttonHit win.flags wx wy win.width mx my with
            | some BKind.closeB => destroyWindow s w
            | some BKind.maxB =>
              if win.maximized then unmaximizeWindow s w else maximizeWindow s w
            | some BKind.minB => minimizeWindow s w
            | none =>
              if wy ≤ my ∧ my < wy + 20 then
                let s1 := focusDance s w
                let s2 := match getWin s1 w with
                  | some v => sysMarkDirty s1 v.x v.y v.width v.height
                  | none => s1
                let s3 := bringToFront s2 w
                if win.flags &&& 0x01 ≠ 0 ∧ ¬ win.maximized then
                  { s3 with wm := { s3.wm with draggingWindow := some w, dragOffX := mx - wx,
                                               dragOffY := my - wy } }
                else s3
              else
                let s1 := focusDance s w
                let s2 := match getWin s1 w with
                  | some v => sysMarkDirty s1 v.x v.y v.width v.height
                  | none => s1
                bringToFront s2 w
        else dispatchClick s mx my rest

/-- handle_mouse from wm_rust. -/
def handleMouse (s : Sys) (mx my : Int) (left : Bool) : Sys :=
  let justPressed := left && !s.wm.lastMouseButton
  let s0 := { s with wm := { s.wm with lastMouseButton := left } }
  match s0.wm.resizingWindow with
  | some rw =>
    if left then resizeContinue s0 rw mx my
    else
      let s1 := { s0 with wm := { s0.wm with resizingWindow := none,
                                             resizeEdge := ResizeEdge.none } }
      { s1 with ds := dsUpdateCursorPosition s1.ds mx my }
  | none =>
    match s0.wm.draggingWindow with
    | some dw =>
      if left then dragContinue s0 dw mx my
      else
        let s1 := { s0 with wm := { s0.wm with draggingWindow := none } }
        { s1 with ds := dsUpdateCursorPosition s1.ds mx my }
    | none =>
      let s1 := { s0 with ds := dsUpdateCursorPosition s0.ds mx my }
      if justPressed then dispatchClick s1 mx my s1.wm.order.reverse else s1

/-- Number of live windows whose `focused` flag is set. -/
def countFocused (s : Sys) : Nat :=
  ((List.range 32).filter (fun i =>
    match getWin s i with | some v => v.focused | none => false)).length

/-- A 1024 by 768 framebuffer descriptor (pitch 4096 bytes). -/
def fbA : FrameBuf := { width := 1024, height := 768, pitch := 4096 }

/-- An 800 by 600 framebuffer descriptor (pitch 3200 bytes). -/
def fbB : FrameBuf := { width := 800, height := 600, pitch := 3200 }

/-- Claim C1 state: a fresh stack on the 1024 by 768 framebuffer with one
300 by 200 window at (10, 20), flags MOVABLE, CLOSABLE and RESIZABLE. -/
def c1Start : Sys := (createWindow (sysInit (some fbA) false) [] 10 20 300 200 7).1

/-- Claim C2 state: two windows created in sequence from boot. -/
def c2State : Sys :=
  (createWindow (createWindow (sysInit (some fbA) false) [] 10 20 300 200 7).1
    [] 50 60 200 150 7).1

/-- Claim C3 state: one 10 by 10 window created, its buffer filled with colour
5 through clear_window, then destroyed — slot 0 of both pools is free again
and the slot 0 buffer holds 5. -/
def c3Mid : Sys :=
  destroyWindow (clearWindow (createWindow (sysInit (some fbA) false) [] 0 0 10 10 3).1 0 5) 0

/-- Claim C3 result: create_surface in the recycled slot. -/
def c3Res : DsState × Option Nat := dsCreateSurface c3Mid.ds 0 0 10 10 0

/-- Claim C4 state: one RESIZABLE 200 by 200 window at (100, 100); the mouse
pressed at (105, 250) starts a left-edge resize. -/
def c4Pre : Sys :=
  handleMouse (createWindow (sysInit (some fbA) false) [] 100 100 200 200 4).1 105 250 true

/-- Claim C4 state after destroying the window being resized. -/
def c4Post : Sys := destroyWindow c4Pre 0

/-- Claim C7 state: a 300 by 200 window at (10, 20) maximized on the 800 by
600 framebuffer (which fits the surface buffer exactly, so no truncation). -/
def c7Pre : Sys := maximizeWindow (createWindow (sysInit (some fbB) false) [] 10 20 300 200 7).1 0

/-- Claim C7 state after a second maximize (a no-op on an already maximized
window) followed by unmaximize. -/
def c7Post : Sys := unmaximizeWindow (maximizeWindow c7Pre 0) 0

/-- Claim C10 state: a RESIZABLE window with a left-edge resize in progress
(reached by an actual press on the resize border). -/
def c10Resizing : Sys :=
  handleMouse (createWindow (sysInit (some fbA) false) [] 100 100 200 200 4).1 105 250 true

/-- Claim C10 state: a MOVABLE window with a drag in progress (reached by an
actual press on the title bar). -/
def c10Dragging : Sys :=
  handleMouse (createWindow (sysInit (some fbA) false) [] 100 100 200 200 1).1 110 105 true

/-- Geometry quadruple of the window in a slot (sentinel for a free slot). -/
def winGeom (s : Sys) (w : Nat) : Int × Int × Nat × Nat :=
  match getWin s w with
  | some v => (v.x, v.y, v.width, v.height)
  | none => (2 ^ 40, 0, 0, 0)

/-- Geometry-relevant fields of a window: position, size, the saved restore
geometry and the maximized flag.  Every window-manager operation that merely
refocuses, restacks or invalidates leaves this projection unchanged. -/
def wset (v : Window) : Int × Int × Nat × Nat × Int × Int × Nat × Nat × Bool :=
  (v.x, v.y, v.width, v.height, v.origX, v.origY, v.origW, v.origH, v.maximized)

/-- Geometry projection of the window in a slot. -/
def winProj (s : Sys) (i : Nat) : Option (Int × Int × Nat × Nat × Int × Int × Nat × Nat × Bool) :=
  (getWin s i).map wset

/-- Dimensions of the surface in a display-server pool slot. -/
def poolDims (d : DsState) (i : Nat) : Option (Nat × Nat) :=
  (lget d.pool i).map (fun su => (su.width, su.height))

/-- Desired cursor position of the display server (the pair set by
update_cursor_position and read by render). -/
def mouseOf (d : DsState) : Int × Int := (d.mouseX, d.mouseY)

/-- Claim C1: maximizing a 300 by 200 window on a 1024 by 768 framebuffer is
claimed to yield a centered 800 by 600 window (the largest aspect-preserving
rectangle fitting in MAX_SURFACE_BUFFER).  The code disagrees: the aspect
arithmetic computes `new_height = (800 * 768) / (1024 * 1000) = 0`, so the
window becomes 800 by 0 at (112, 384), contradicting both the claimed size
800 by 600 and the claimed centre height (768 - 600) / 2 = 84. -/
theorem c1_maximize_1024x768_gives_800x0 :
    maximizeTargetSize 1024 768 = (800, 0) ∧
    winGeom (maximizeWindow c1Start 0) 0 = (112, 384, 800, 0) ∧
    (match getWin (maximizeWindow c1Start 0) 0 with
      | some v => v.maximized | none => false) = true := by
  decide

/-- Claim C2: at most one live window is claimed to have `focused = true` in
every reachable state.  The code disagrees: create_window focuses the new
window without unfocusing the previously focused one, so after two
create_window calls from boot both live windows have `focused = true`. -/
theorem c2_two_creates_two_focused :
    (match getWin c2State 0 with | some v => v.focused | none => false) = true ∧
    (match getWin c2State 1 with | some v => v.focused | none => false) = true ∧
    countFocused c2State = 2 := by
  decide

/-- Claim C4: destroy_window is claimed to clear every focus, drag and resize
reference pointing at the destroyed window.  The code disagrees: it clears
`focused_window` and `dragging_window` but not `resizing_window`, so after
destroying the window currently being resized the resize reference still
points at the freed slot. -/
theorem c4_destroy_keeps_resizing_reference :
    c4Pre.wm.resizingWindow = some 0 ∧
    (getWin c4Pre 0).isSome = true ∧
    getWin c4Post 0 = none ∧
    lget c4Post.ds.pool 0 = none ∧
    c4Post.wm.focusedWindow = none ∧
    c4Post.wm.draggingWindow = none ∧
    c4Post.wm.resizingWindow = some 0 := by
  decide

/-- Claim C3 counterexample: create_surface with `w * h = 100 > 0` succeeds in
a free slot whose buffer was written by a previous (destroyed) surface, and
cell 0 of the returned buffer is 5, not 0 — the claimed zero-initialisation
does not happen. -/
theorem c3_counterexample :
    0 < 10 * 10 ∧
    lget c3Mid.ds.pool 0 = none ∧
    c3Res.2 = some 0 ∧
    c3Res.1.bufs 0 0 = 5 := by
  decide

/-- Claim C5 counterexample: a window with `flags = 0` permits no button (no
flag bit is set), yet update draws the maximize and minimize buttons and
handle_mouse accepts a click at (185, 5) inside the maximize box of a 200
pixel wide window at the origin. -/
theorem c5_counterexample :
    buttonsDrawn 0 200 = [(BKind.maxB, 182), (BKind.minB, 162)] ∧
    buttonHit 0 0 0 200 185 5 = some BKind.maxB := by
  decide

/-- Claim C6 counterexample: a 4 by 4 surface at (-2, 0) on a 10 by 10
backbuffer intersects the screen in a 2 by 4 rectangle, so the claim requires
the source value 7 at pixel (0, 0); the code paints nothing because the
negative origin is cast with `as usize`.  The same surface shifted to (2, 0)
does copy its pixels. -/
theorem c6_counterexample :
    renderSurfaceToBackbuffer (fun _ => 0) 10 10 (-2) 0 4 4 (fun _ => 7) 0 = 0 ∧
    renderSurfaceToBackbuffer (fun _ => 0) 10 10 2 0 4 4 (fun _ => 7) 2 = 7 := by
  decide

/-- Claim C7 counterexample: on the 800 by 600 framebuffer (no truncation,
`800 * 600 ≤ MAX_SURFACE_BUFFER`), a window that is already maximized at
(0, 0, 800, 600) is not restored to that geometry by maximize followed by
unmaximize: maximize is a no-op and unmaximize restores the older saved
geometry (10, 20, 300, 200). -/
theorem c7_counterexample :
    fbB.width * fbB.height ≤ 800 * 600 ∧
    winGeom c7Pre 0 = (0, 0, 800, 600) ∧
    (match getWin c7Pre 0 with | some v => v.maximized | none => false) = true ∧
    winGeom c7Post 0 = (10, 20, 300, 200) := by
  decide

/-- Claim C8 counterexample: calling update_cursor_position with the current
mouse position (0, 0) on a fresh display server is claimed to leave the state
unchanged, but the dirty rectangle changes from invalid to valid (the new
cursor envelope is always unioned in). -/
theorem c8_counterexample :
    (dsInit (some fbB) false).mouseX = 0 ∧
    (dsInit (some fbB) false).mouseY = 0 ∧
    (dsInit (some fbB) false).dirty.valid = false ∧
    (dsUpdateCursorPosition (dsInit (some fbB) false) 0 0).dirty.valid = true := by
  decide

/-- Claim C9 counterexample: with destination stride `2 ^ 31`, source stride 1
and a 1 by 3 region, the accelerated blit wraps the 32-bit row offset
`2 * 2 ^ 31` to 0 and overwrites destination cell 0 with source row 2, while
the scalar reference leaves cell 0 equal to source row 0. -/
theorem c9_counterexample :
    gpuBlit (fun _ => 0) (2 ^ 31) (fun i => i) 1 1 3 0 = 2 ∧
    scalarBlit (fun _ => 0) (2 ^ 31) (fun i => i) 1 1 3 0 = 0 := by
  decide

set_option maxHeartbeats 1000000

/-- Claim C5 (amended): the buttons drawn by update and the regions tested by
handle_mouse coincide exactly.  The drawn sequence is close, maximize,
minimize for CLOSABLE windows and maximize, minimize otherwise (maximize and
minimize are NOT gated by any flag bit), packed from the right starting at
`width - 18` with consecutive boxes 20 pixels apart (16 wide plus 4
separation), each at the 2 pixel top inset; a click is accepted for a button
exactly when it lies inside that button box of the drawn layout. -/
theorem c5_button_layout_hit_correspondence (flags width : Nat) (wx wy mx my : Int) :
    ((buttonsDrawn flags width).map Prod.fst =
       if flags &&& 0x02 ≠ 0 then [BKind.closeB, BKind.maxB, BKind.minB]
       else [BKind.maxB, BKind.minB]) ∧
    ((buttonsDrawn flags width).head?.map Prod.snd = some (u32ToI32 width - 18)) ∧
    (List.Chain' (fun p q : BKind × Int => p.2 - q.2 = 20) (buttonsDrawn flags width)) ∧
    (∀ k : BKind, buttonHit flags wx wy width mx my = some k ↔
      ∃ bx, (k, bx) ∈ buttonsDrawn flags width ∧
        wx + bx ≤ mx ∧ mx < wx + bx + 16 ∧ wy + 2 ≤ my ∧ my < wy + 2 + 16) := by
  by_cases hc : flags &&& 0x02 ≠ 0
  · refine ⟨by simp [buttonsDrawn, hc], by simp [buttonsDrawn, hc],
      by simp [buttonsDrawn, hc], ?_⟩
    intro k
    cases k <;>
      simp only [buttonsDrawn, buttonHit, hc, reduceIte, true_and, false_and, if_false,
        ite_false, List.mem_cons, List.not_mem_nil, or_false, Prod.mk.injEq] <;>
      split_ifs <;> simp <;> omega
  · refine ⟨by simp [buttonsDrawn, hc], by simp [buttonsDrawn, hc],
      by simp [buttonsDrawn, hc], ?_⟩
    intro k
    cases k <;>
      simp only [buttonsDrawn, buttonHit, hc, reduceIte, true_and, false_and, if_false,
        ite_false, List.mem_cons, List.not_mem_nil, or_false, Prod.mk.injEq] <;>
      split_ifs <;> simp <;> omega

/-- Witness for the C5 layout theorem at a concrete input: on a CLOSABLE 200
pixel wide window at the origin, the click at (185, 5) is accepted as a close
click, and the close box it falls into is part of the drawn layout. -/
theorem c5_button_layout_hit_correspondence_witness :
    buttonHit 2 0 0 200 185 5 = some BKind.closeB ∧
    ∃ bx, (BKind.closeB, bx) ∈ buttonsDrawn 2 200 ∧
      (0 : Int) + bx ≤ 185 ∧ (185 : Int) < 0 + bx + 16 ∧
      (0 : Int) + 2 ≤ 5 ∧ (5 : Int) < 0 + 2 + 16 :=
  ⟨by decide,
   ((c5_button_layout_hit_correspondence 2 200 0 0 185 5).2.2.2 BKind.closeB).mp (by decide)⟩

/-- The union of a dirty rectangle with a valid rectangle is valid. -/
theorem rectUnion_valid_right (a b : DirtyRect) (hb : b.valid = true) :
    (rectUnion a b).valid = true := by
  unfold rectUnion; split_ifs <;> simp_all

/-- Claim C8 (amended): update_cursor_position sets the desired position and
ALWAYS unions the new 14 by 18 cursor envelope into the dirty rectangle — so
the dirty rectangle is valid afterwards even when the position did not change;
the envelope of the last rendered cursor is additionally unioned exactly when
the position changed and a cursor was rendered before.  No drawing occurs:
backbuffer, framebuffer, surfaces and cursor bookkeeping are untouched. -/
theorem c8_update_cursor_characterization (s : DsState) (x y : Int) :
    (dsUpdateCursorPosition s x y).mouseX = x ∧
    (dsUpdateCursorPosition s x y).mouseY = y ∧
    (dsUpdateCursorPosition s x y).dirty.valid = true ∧
    (((s.mouseX ≠ x ∨ s.mouseY ≠ y) ∧ 0 ≤ s.lastCursorX ∧ 0 ≤ s.lastCursorY) →
      (dsUpdateCursorPosition s x y).dirty =
        rectUnion (rectUnion s.dirty
          { x := s.lastCursorX - 1, y := s.lastCursorY - 1, width := 14, height := 18,
            valid := true })
          { x := x - 1, y := y - 1, width := 14, height := 18, valid := true }) ∧
    (¬ ((s.mouseX ≠ x ∨ s.mouseY ≠ y) ∧ 0 ≤ s.lastCursorX ∧ 0 ≤ s.lastCursorY) →
      (dsUpdateCursorPosition s x y).dirty =
        rectUnion s.dirty { x := x - 1, y := y - 1, width := 14, height := 18, valid := true }) ∧
    (dsUpdateCursorPosition s x y).backbuffer = s.backbuffer ∧
    (dsUpdateCursorPosition s x y).fbMem = s.fbMem ∧
    (dsUpdateCursorPosition s x y).pool = s.pool ∧
    (dsUpdateCursorPosition s x y).order = s.order ∧
    (dsUpdateCursorPosition s x y).bufs = s.bufs ∧
    (dsUpdateCursorPosition s x y).lastCursorX = s.lastCursorX ∧
    (dsUpdateCursorPosition s x y).lastCursorY = s.lastCursorY ∧
    (dsUpdateCursorPosition s x y).cursorBackupValid = s.cursorBackupValid := by
  unfold dsUpdateCursorPosition dsMarkDirty
  split_ifs with h <;> simp_all [rectUnion_valid_right]

/-- Witness for the C8 characterization at a concrete input: a fresh display
server moved to (5, 6) — no cursor was rendered yet, so only the new envelope
at (4, 5) is unioned into the (previously invalid) dirty rectangle. -/
theorem c8_update_cursor_characterization_witness :
    (dsUpdateCursorPosition (dsInit (some fbB) false) 5 6).mouseX = 5 ∧
    (dsUpdateCursorPosition (dsInit (some fbB) false) 5 6).dirty =
      rectUnion (dsInit (some fbB) false).dirty
        { x := 4, y := 5, width := 14, height := 18, valid := true } :=
  ⟨(c8_update_cursor_characterization (dsInit (some fbB) false) 5 6).1,
   (c8_update_cursor_characterization (dsInit (some fbB) false) 5 6).2.2.2.2.1 (by decide)⟩

/-- Pointwise evaluation of a row segment write. -/
theorem writeSeg_eval (src : Nat → Nat) (d o w : Nat) (acc : Nat → Nat) (idx : Nat) :
    writeSeg src d o w acc idx =
      if d ≤ idx ∧ idx < d + w then src (o + (idx - d)) else acc idx := rfl

/-- Two row-write folds with pointwise equal offset schedules agree. -/
theorem foldl_writeSeg_congr (src : Nat → Nat) (d1 d2 o1 o2 : Nat → Nat) (w : Nat)
    (b : Nat → Nat) (h : Nat) (hd : ∀ r, r < h → d1 r = d2 r) (ho : ∀ r, r < h → o1 r = o2 r)
    (idx : Nat) :
    ((List.range h).foldl (fun acc r => writeSeg src (d1 r) (o1 r) w acc) b) idx =
    ((List.range h).foldl (fun acc r => writeSeg src (d2 r) (o2 r) w acc) b) idx := by
  induction h with
  | zero => rfl
  | succ n ih =>
    rw [List.range_succ]
    simp only [List.foldl_append, List.foldl_cons, List.foldl_nil, writeSeg_eval]
    rw [hd n (by omega), ho n (by omega)]
    split_ifs
    · rfl
    · exact ih (fun r hr => hd r (by omega)) (fun r hr => ho r (by omega))

/-- A fold whose step ignores the row leaves the memory unchanged. -/
theorem foldl_const_acc (b : Nat → Nat) (l : List Nat) (idx : Nat) :
    (l.foldl (fun (acc : Nat → Nat) (_ : Nat) => acc) b) idx = b idx := by
  induction l generalizing b with
  | nil => rfl
  | cons a t ih => simpa only [List.foldl_cons] using ih b

/-- Zero-width row writes change nothing. -/
theorem foldl_writeSeg_zero (src : Nat → Nat) (d o : Nat → Nat) (b : Nat → Nat)
    (l : List Nat) (idx : Nat) :
    (l.foldl (fun acc r => writeSeg src (d r) (o r) 0 acc) b) idx = b idx := by
  induction l generalizing b with
  | nil => rfl
  | cons a t ih =>
    simp only [List.foldl_cons]
    rw [ih]
    rw [writeSeg_eval, if_neg (by omega)]

/-- The `if width > 0` guard of the CPU fallback row loop is redundant. -/
theorem foldl_writeSeg_dropIf (src : Nat → Nat) (d o : Nat → Nat) (w : Nat)
    (b : Nat → Nat) (h : Nat) (idx : Nat) :
    ((List.range h).foldl
      (fun acc r => if 0 < w then writeSeg src (d r) (o r) w acc else acc) b) idx =
    ((List.range h).foldl (fun acc r => writeSeg src (d r) (o r) w acc) b) idx := by
  by_cases hw : 0 < w
  · simp only [hw, reduceIte]
  · have hw0 : w = 0 := by omega
    subst hw0
    simp only [lt_self_iff_false, reduceIte]
    rw [foldl_const_acc, foldl_writeSeg_zero]

/-- Claim C9 (amended): as long as no per-row `u32` offset `y * pitch` wraps
(which holds for every real framebuffer and for the whole render flush path),
the accelerated gpu_blit writes exactly the pixels of the scalar row-by-row
reference copy, and the gpu_blit call issued by
copy_backbuffer_to_framebuffer on the clamped dirty region produces the same
framebuffer memory as the CPU fallback loop. -/
theorem c9_gpu_blit_matches_scalar (dst src : Nat → Nat) (dstPitch srcPitch w h sx sy : Nat)
    (hd : ∀ yr, yr < h → yr * dstPitch < 2 ^ 32)
    (hs : ∀ yr, yr < h → yr * srcPitch < 2 ^ 32) :
    (∀ idx, gpuBlit dst dstPitch src srcPitch w h idx =
      scalarBlit dst dstPitch src srcPitch w h idx) ∧
    (∀ idx, gpuBlitAt dst dstPitch src srcPitch (sy * dstPitch + sx) (sy * srcPitch + sx) w h idx
        = flushCpu dst dstPitch src srcPitch sx sy w h idx) := by
  constructor
  · intro idx
    unfold gpuBlit gpuBlitAt scalarBlit
    exact foldl_writeSeg_congr src (fun y => 0 + (y * dstPitch) % 2 ^ 32) (fun y => y * dstPitch)
      (fun y => 0 + (y * srcPitch) % 2 ^ 32) (fun y => y * srcPitch) w dst h
      (fun r hr => by
        show 0 + (r * dstPitch) % 2 ^ 32 = r * dstPitch
        rw [Nat.mod_eq_of_lt (hd r hr)]; omega)
      (fun r hr => by
        show 0 + (r * srcPitch) % 2 ^ 32 = r * srcPitch
        rw [Nat.mod_eq_of_lt (hs r hr)]; omega) idx
  · intro idx
    unfold gpuBlitAt flushCpu
    rw [foldl_writeSeg_dropIf src (fun r => (sy + r) * dstPitch + sx)
      (fun r => (sy + r) * srcPitch + sx) w dst h idx]
    exact foldl_writeSeg_congr src
      (fun y => sy * dstPitch + sx + (y * dstPitch) % 2 ^ 32)
      (fun y => (sy + y) * dstPitch + sx)
      (fun y => sy * srcPitch + sx + (y * srcPitch) % 2 ^ 32)
      (fun y => (sy + y) * srcPitch + sx) w dst h
      (fun r hr => by
        show sy * dstPitch + sx + (r * dstPitch) % 2 ^ 32 = (sy + r) * dstPitch + sx
        rw [Nat.mod_eq_of_lt (hd r hr), Nat.add_mul]; ring)
      (fun r hr => by
        show sy * srcPitch + sx + (r * srcPitch) % 2 ^ 32 = (sy + r) * srcPitch + sx
        rw [Nat.mod_eq_of_lt (hs r hr), Nat.add_mul]; ring) idx

/-- Witness for the C9 equivalence at a concrete input: a 2 by 2 blit with
pitches 4 and 3 starting at row 1, column 1. -/
theorem c9_gpu_blit_matches_scalar_witness :
    (∀ yr, yr < 2 → yr * 4 < 2 ^ 32) ∧
    gpuBlit (fun _ => 0) 4 (fun i => i + 10) 3 2 2 5 =
      scalarBlit (fun _ => 0) 4 (fun i => i + 10) 3 2 2 5 ∧
    gpuBlitAt (fun _ => 0) 4 (fun i => i + 10) 3 (1 * 4 + 1) (1 * 3 + 1) 2 2 5 =
      flushCpu (fun _ => 0) 4 (fun i => i + 10) 3 1 1 2 2 5 :=
  ⟨by decide,
   (c9_gpu_blit_matches_scalar (fun _ => 0) (fun i => i + 10) 4 3 2 2 1 1
     (by decide) (by decide)).1 5,
   (c9_gpu_blit_matches_scalar (fun _ => 0) (fun i => i + 10) 4 3 2 2 1 1
     (by decide) (by decide)).2 5⟩

/-- A row loop whose condition fails at the entry row does nothing. -/
theorem renderLoopAux_stop (cond : Nat → Prop) [DecidablePred cond]
    (step : (Nat → Nat) → Nat → (Nat → Nat)) (fuel r : Nat) (acc : Nat → Nat)
    (h : ¬ cond r) : renderLoopAux cond step fuel r acc = acc := by
  cases fuel with
  | zero => rfl
  | succ n => simp [renderLoopAux, h]

/-- A row loop whose step is the identity does nothing. -/
theorem renderLoopAux_const (cond : Nat → Prop) [DecidablePred cond] (fuel r : Nat)
    (acc : Nat → Nat) :
    renderLoopAux cond (fun a _ => a) fuel r acc = acc := by
  induction fuel generalizing r with
  | zero => rfl
  | succ n ih =>
    simp only [renderLoopAux]
    split_ifs with hc
    · exact ih (r + 1)
    · rfl

/-- A surface row loop whose segments all miss a cell leaves it unchanged. -/
theorem surfLoop_miss (cond : Nat → Prop) [DecidablePred cond] (sbuf : Nat → Nat)
    (dOff sOff : Nat → Nat) (vw fuel r : Nat) (acc : Nat → Nat) (idx : Nat)
    (h : ∀ r', r ≤ r' → r' < r + fuel → ¬ (dOff r' ≤ idx ∧ idx < dOff r' + vw)) :
    renderLoopAux cond (fun acc r => writeSeg sbuf (dOff r) (sOff r) vw acc)
      fuel r acc idx = acc idx := by
  induction fuel generalizing r acc with
  | zero => rfl
  | succ n ih =>
    simp only [renderLoopAux]
    split_ifs with hc
    · rw [ih (r + 1) _ (fun r' h1 h2 => h r' (by omega) (by omega))]
      rw [writeSeg_eval, if_neg (h r (by omega) (by omega))]
    · rfl

/-- A surface row loop writes the source value at a cell hit by exactly one
executed row segment. -/
theorem surfLoop_hit (cond : Nat → Prop) [DecidablePred cond] (sbuf : Nat → Nat)
    (dOff sOff : Nat → Nat) (vw fuel r : Nat) (acc : Nat → Nat) (idx r0 : Nat)
    (hlo : r ≤ r0) (hhi : r0 < r + fuel)
    (hc : ∀ r', r ≤ r' → r' ≤ r0 → cond r')
    (hhit : dOff r0 ≤ idx ∧ idx < dOff r0 + vw)
    (huniq : ∀ r', r ≤ r' → r' < r + fuel → dOff r' ≤ idx ∧ idx < dOff r' + vw → r' = r0) :
    renderLoopAux cond (fun acc r => writeSeg sbuf (dOff r) (sOff r) vw acc)
      fuel r acc idx = sbuf (sOff r0 + (idx - dOff r0)) := by
  induction fuel generalizing r acc with
  | zero => omega
  | succ n ih =>
    have hcr : cond r := hc r (by omega) hlo
    simp only [renderLoopAux, if_pos hcr]
    by_cases heq : r = r0
    · subst heq
      rw [surfLoop_miss cond sbuf dOff sOff vw n (r + 1) _ idx
        (fun r' h1 h2 hhit' => absurd (huniq r' (by omega) (by omega) hhit') (by omega))]
      rw [writeSeg_eval, if_pos hhit]
    · exact ih (r + 1) _ (by omega) (by omega) (fun r' h1 h2 => hc r' (by omega) h2)
        (fun r' h1 h2 => huniq r' (by omega) (by omega))

/-- A cell in column `px` of row `py` that lies in the row segment of row `m`
(whose span stays inside one backbuffer line) fixes `m = py`. -/
theorem row_eq_of_seg (bbW m py px a vw : Nat) (hpx : px < bbW)
    (h1 : m * bbW + a ≤ py * bbW + px) (h2 : py * bbW + px < m * bbW + a + vw)
    (havw : a + vw ≤ bbW) : m = py := by
  rcases Nat.lt_trichotomy m py with h | h | h
  · have hm : (m + 1) * bbW ≤ py * bbW := Nat.mul_le_mul_right _ (by omega)
    rw [Nat.add_mul] at hm
    omega
  · exact h
  · have hm : (py + 1) * bbW ≤ m * bbW := Nat.mul_le_mul_right _ (by omega)
    rw [Nat.add_mul] at hm
    omega

/-- Claim C6 (amended): for a surface whose coordinates are in `i32` range and
whose dimensions and the backbuffer dimensions are in `u32` range,
render_surface_to_backbuffer paints zero pixels whenever the surface is fully
off screen OR has a negative x or y origin (the `as usize` cast turns a
negative origin into a huge offset, so nothing is copied even when the
surface partially overlaps the screen); for a non-negative origin, exactly
the intersection of the surface rectangle with the backbuffer bounds is
copied, pixel for pixel. -/
theorem c6_render_surface_clipping (bb : Nat → Nat) (bbW bbH : Nat) (sx sy : Int) (sw sh : Nat) (sbuf : Nat → Nat)
    (hsx : sx.natAbs ≤ 2 ^ 31) (hsy : sy.natAbs ≤ 2 ^ 31)
    (hbw : bbW ≤ 2 ^ 32) (hbh : bbH ≤ 2 ^ 32) (hsw : sw ≤ 2 ^ 32) (hsh : sh ≤ 2 ^ 32) :
    ((sx < 0 ∨ sy < 0 ∨ (bbW : Int) ≤ sx ∨ (bbH : Int) ≤ sy) →
      ∀ idx, renderSurfaceToBackbuffer bb bbW bbH sx sy sw sh sbuf idx = bb idx) ∧
    (0 ≤ sx → 0 ≤ sy → ∀ px py, px < bbW → py < bbH →
      renderSurfaceToBackbuffer bb bbW bbH sx sy sw sh sbuf (py * bbW + px) =
        if sy.toNat ≤ py ∧ py < sy.toNat + sh ∧ sx.toNat ≤ px ∧ px < sx.toNat + sw then
          sbuf ((py - sy.toNat) * sw + (px - sx.toNat))
        else bb (py * bbW + px)) := by
  constructor
  · rintro (h | h | h | h) idx <;> unfold renderSurfaceToBackbuffer renderLoop <;>
      simp only [Nat.sub_zero]
    · have hv : min sw (bbW - toUsize sx) = 0 := by unfold toUsize; omega
      simp only [hv, reduceIte]
      rw [renderLoopAux_const]
    · have hstop : ¬ ((toUsize sy + 0) % 2 ^ 64 < bbH) := by unfold toUsize; omega
      rw [renderLoopAux_stop (fun r => (toUsize sy + r) % 2 ^ 64 < bbH) _ sh 0 bb hstop]
    · have hv : min sw (bbW - toUsize sx) = 0 := by unfold toUsize; omega
      simp only [hv, reduceIte]
      rw [renderLoopAux_const]
    · have hstop : ¬ ((toUsize sy + 0) % 2 ^ 64 < bbH) := by unfold toUsize; omega
      rw [renderLoopAux_stop (fun r => (toUsize sy + r) % 2 ^ 64 < bbH) _ sh 0 bb hstop]
  · intro hx0 hy0 px py hpx hpy
    have hua : toUsize sx = sx.toNat := by unfold toUsize; omega
    have hub : toUsize sy = sy.toNat := by unfold toUsize; omega
    have ha31 : sx.toNat ≤ 2 ^ 31 := by omega
    have hb31 : sy.toNat ≤ 2 ^ 31 := by omega
    unfold renderSurfaceToBackbuffer renderLoop
    simp only [hua, hub, Nat.sub_zero]
    by_cases hin : sy.toNat ≤ py ∧ py < sy.toNat + sh ∧ sx.toNat ≤ px ∧ px < sx.toNat + sw
    · rw [if_pos hin]
      obtain ⟨h1, h2, h3, h4⟩ := hin
      have hvw : ¬ (min sw (bbW - sx.toNat) = 0) := by omega
      simp only [hvw, reduceIte]
      have key := surfLoop_hit (fun r => (sy.toNat + r) % 2 ^ 64 < bbH) sbuf
        (fun r => ((sy.toNat + r) % 2 ^ 64) * bbW + sx.toNat)
        (fun r => r * sw) (min sw (bbW - sx.toNat)) sh 0 bb (py * bbW + px) (py - sy.toNat)
        (by omega) (by omega)
        (fun r' hr1 hr2 => by omega)
        (by
          show ((sy.toNat + (py - sy.toNat)) % 2 ^ 64) * bbW + sx.toNat ≤ py * bbW + px ∧
            py * bbW + px <
              ((sy.toNat + (py - sy.toNat)) % 2 ^ 64) * bbW + sx.toNat + min sw (bbW - sx.toNat)
          have hm : (sy.toNat + (py - sy.toNat)) % 2 ^ 64 = py := by omega
          rw [hm]
          omega)
        (fun r' hr1 hr2 hseg => by
          replace hseg : ((sy.toNat + r') % 2 ^ 64) * bbW + sx.toNat ≤ py * bbW + px ∧
              py * bbW + px <
                ((sy.toNat + r') % 2 ^ 64) * bbW + sx.toNat + min sw (bbW - sx.toNat) := hseg
          have hm : (sy.toNat + r') % 2 ^ 64 = sy.toNat + r' := by omega
          rw [hm] at hseg
          have := row_eq_of_seg bbW (sy.toNat + r') py px sx.toNat
            (min sw (bbW - sx.toNat)) hpx hseg.1 hseg.2 (by omega)
          omega)
      rw [key]
      congr 1
      show (py - sy.toNat) * sw +
          (py * bbW + px - ((sy.toNat + (py - sy.toNat)) % 2 ^ 64 * bbW + sx.toNat)) =
        (py - sy.toNat) * sw + (px - sx.toNat)
      have hm : (sy.toNat + (py - sy.toNat)) % 2 ^ 64 = py := by omega
      rw [hm]
      omega
    · rw [if_neg hin]
      by_cases hv : min sw (bbW - sx.toNat) = 0
      · simp only [hv, reduceIte]
        rw [renderLoopAux_const]
      · simp only [hv, reduceIte]
        apply surfLoop_miss
        intro r' hr1 hr2 hseg
        replace hseg : ((sy.toNat + r') % 2 ^ 64) * bbW + sx.toNat ≤ py * bbW + px ∧
            py * bbW + px <
              ((sy.toNat + r') % 2 ^ 64) * bbW + sx.toNat + min sw (bbW - sx.toNat) := hseg
        have hm : (sy.toNat + r') % 2 ^ 64 = sy.toNat + r' := by omega
        rw [hm] at hseg
        have heq := row_eq_of_seg bbW (sy.toNat + r') py px sx.toNat
          (min sw (bbW - sx.toNat)) hpx hseg.1 hseg.2 (by omega)
        rw [heq] at hseg
        apply hin
        omega

/-- Witness for the C6 characterization at a concrete input: a 2 by 2 surface
at (1, 1) on a 4 by 4 backbuffer; the screen pixel (2, 1) receives the
surface value. -/
theorem c6_render_surface_clipping_witness :
    (1 : Int).natAbs ≤ 2 ^ 31 ∧
    renderSurfaceToBackbuffer (fun _ => 1) 4 4 1 1 2 2 (fun _ => 9) (1 * 4 + 2) =
      (if (1 : Int).toNat ≤ 1 ∧ 1 < (1 : Int).toNat + 2 ∧
          (1 : Int).toNat ≤ 2 ∧ 2 < (1 : Int).toNat + 2 then
        (fun _ => 9) ((1 - (1 : Int).toNat) * 2 + (2 - (1 : Int).toNat))
      else (fun _ => 1) (1 * 4 + 2)) :=
  ⟨by decide,
   (c6_render_surface_clipping (fun _ => 1) 4 4 1 1 2 2 (fun _ => 9)
     (by decide) (by decide) (by decide) (by decide) (by decide) (by decide)).2
     (by decide) (by decide) 2 1 (by decide) (by decide)⟩

/-- Shared list lemmas for the pool and z-order bookkeeping of
create_surface. -/
theorem lget_set_self (l : List (Option α)) (i : Nat) (a : Option α) (h : i < l.length) :
    lget (l.set i a) i = a := by
  induction l generalizing i with
  | nil => simp at h
  | cons hd tl ih =>
    cases i with
    | zero => simp [lget]
    | succ n =>
      simp only [List.set]
      simpa [lget] using ih n (by simpa using h)

theorem lget_set_other (l : List (Option α)) (i j : Nat) (a : Option α) (h : i ≠ j) :
    lget (l.set i a) j = lget l j := by
  induction l generalizing i j with
  | nil => simp [lget]
  | cons hd tl ih =>
    cases i with
    | zero =>
      cases j with
      | zero => omega
      | succ m => simp [lget]
    | succ n =>
      cases j with
      | zero => simp [lget]
      | succ m =>
        simp only [List.set]
        simpa [lget] using ih n m (by omega)

theorem bubbleAux_length (z : Nat → Int) (a : Nat) (l : List Nat) :
    (bubbleAux z a l).length = l.length + 1 := by
  induction l generalizing a with
  | nil => rfl
  | cons b t ih =>
    simp only [bubbleAux]
    split_ifs <;> simp [ih]

theorem bubbleAux_mem (z : Nat → Int) (a b : Nat) (l : List Nat) :
    b ∈ bubbleAux z a l ↔ b = a ∨ b ∈ l := by
  induction l generalizing a with
  | nil => simp [bubbleAux]
  | cons c t ih =>
    simp only [bubbleAux]
    split_ifs <;> simp [ih] <;> tauto

theorem bubblePass_length (z : Nat → Int) (l : List Nat) :
    (bubblePass z l).length = l.length := by
  cases l with
  | nil => rfl
  | cons a t => simp [bubblePass, bubbleAux_length]

theorem bubblePass_mem (z : Nat → Int) (b : Nat) (l : List Nat) :
    b ∈ bubblePass z l ↔ b ∈ l := by
  cases l with
  | nil => simp [bubblePass]
  | cons a t => simp [bubblePass, bubbleAux_mem]

theorem sortByZ_length (pool : List (Option Surface)) (l : List Nat) :
    (sortByZ pool l).length = l.length := by
  unfold sortByZ
  generalize List.range l.length = rg
  induction rg generalizing l with
  | nil => rfl
  | cons a t ih => simp only [List.foldl_cons]; rw [ih, bubblePass_length]

theorem sortByZ_mem (pool : List (Option Surface)) (b : Nat) (l : List Nat) :
    b ∈ sortByZ pool l ↔ b ∈ l := by
  unfold sortByZ
  generalize List.range l.length = rg
  induction rg generalizing l with
  | nil => simp
  | cons a t ih => simp only [List.foldl_cons]; rw [ih, bubblePass_mem]

/-- Claim C3 (amended): for every create_surface(x, y, w, h, z) call with
w * h > 0 on the 32-slot pool, the call returns null exactly when the z-order
list already holds 32 entries, or no pool slot is free, or the 32-bit product
w * h exceeds MAX_SURFACE_BUFFER (800 * 600); on success it occupies a
previously free slot, records the requested geometry there, and the slot
joins the z-ordered list, which grows by one — but the slot buffers are left
untouched (no zero-initialisation), so a recycled slot still holds the pixels
written through the destroyed surface that used it before. -/
theorem c3_create_surface_characterization (s : DsState) (x y : Int) (w h : Nat) (z : Int)
    (hpos : 0 < w * h) (hlen : s.pool.length = 32) :
    ((dsCreateSurface s x y w h z).2 = none ↔
      32 ≤ s.order.length ∨ (∀ i, i < 32 → (lget s.pool i).isSome = true) ∨
        800 * 600 < (w * h) % 2 ^ 32) ∧
    (∀ slot, (dsCreateSurface s x y w h z).2 = some slot →
      lget s.pool slot = none ∧
      lget (dsCreateSurface s x y w h z).1.pool slot =
        some { x := x, y := y, width := w, height := h, zOrder := z } ∧
      (dsCreateSurface s x y w h z).1.bufs = s.bufs ∧
      slot ∈ (dsCreateSurface s x y w h z).1.order ∧
      (dsCreateSurface s x y w h z).1.order.length = s.order.length + 1) := by
  unfold dsCreateSurface
  by_cases h1 : 32 ≤ s.order.length
  · simp only [if_pos h1]
    refine ⟨⟨fun _ => Or.inl h1, fun _ => by simp⟩, fun slot hs => by simp at hs⟩
  · simp only [if_neg h1]
    cases hfind : findFreeSlot s.pool with
    | none =>
      simp only [hfind]
      have hall : ∀ i, i < 32 → (lget s.pool i).isSome = true := by
        intro i hi
        unfold findFreeSlot at hfind
        have hni := List.find?_eq_none.mp hfind i (List.mem_range.mpr hi)
        cases hop : lget s.pool i with
        | none => rw [hop] at hni; simp at hni
        | some v => rfl
      refine ⟨⟨fun _ => Or.inr (Or.inl hall), fun _ => by simp⟩, fun slot hs => by simp at hs⟩
    | some slot0 =>
      simp only [hfind]
      have hp : (lget s.pool slot0).isNone = true := by
        unfold findFreeSlot at hfind
        simpa using List.find?_some hfind
      have hmem32 : slot0 < 32 := by
        unfold findFreeSlot at hfind
        simpa using List.mem_of_find?_eq_some hfind
      have hnone : lget s.pool slot0 = none := Option.isNone_iff_eq_none.mp hp
      by_cases h2 : 800 * 600 < (w * h) % 2 ^ 32
      · simp only [if_pos h2]
        refine ⟨⟨fun _ => Or.inr (Or.inr h2), fun _ => by simp⟩, fun slot hs => by simp at hs⟩
      · simp only [if_neg h2]
        refine ⟨⟨fun habs => by simp at habs, ?_⟩, ?_⟩
        · rintro (hc | hc | hc)
          · exact absurd hc h1
          · exact absurd (hc slot0 hmem32) (by simp [hnone])
          · exact absurd hc h2
        · intro slot hs
          have hslot : slot = slot0 := by
            have := hs
            simp at this
            omega
          subst hslot
          refine ⟨hnone, ?_, trivial, ?_, ?_⟩
          · exact lget_set_self s.pool slot _ (by omega)
          · rw [sortByZ_mem]
            simp
          · rw [sortByZ_length]
            simp


/-- Witness: the characterization applied to the recycled-slot trace of the
counterexample, with both hypotheses discharged by evaluation. -/
theorem c3_create_surface_characterization_witness :
    (0 < 10 * 10 ∧ c3Mid.ds.pool.length = 32) ∧
    (((dsCreateSurface c3Mid.ds 0 0 10 10 0).2 = none ↔
        32 ≤ c3Mid.ds.order.length ∨
          (∀ i, i < 32 → (lget c3Mid.ds.pool i).isSome = true) ∨
            800 * 600 < (10 * 10) % 2 ^ 32) ∧
      ∀ slot, (dsCreateSurface c3Mid.ds 0 0 10 10 0).2 = some slot →
        lget c3Mid.ds.pool slot = none ∧
        lget (dsCreateSurface c3Mid.ds 0 0 10 10 0).1.pool slot =
          some { x := 0, y := 0, width := 10, height := 10, zOrder := 0 } ∧
        (dsCreateSurface c3Mid.ds 0 0 10 10 0).1.bufs = c3Mid.ds.bufs ∧
        slot ∈ (dsCreateSurface c3Mid.ds 0 0 10 10 0).1.order ∧
        (dsCreateSurface c3Mid.ds 0 0 10 10 0).1.order.length =
          c3Mid.ds.order.length + 1) :=
  ⟨⟨by decide, by decide⟩,
    c3_create_surface_characterization c3Mid.ds 0 0 10 10 0 (by decide) (by decide)⟩

/-- Auxiliary lemmas about the window-geometry projection: pool lookups,
modifyWin, the display-server surface operations and the focus, restack and
restore helpers of the window manager all preserve it. -/
theorem lget_some_lt (l : List (Option α)) (i : Nat) (a : α) (h : lget l i = some a) :
    i < l.length := by
  induction l generalizing i with
  | nil => simp [lget] at h
  | cons hd tl ih =>
    cases i with
    | zero => simp
    | succ n =>
      simp only [List.length_cons]
      have := ih n (by simpa [lget] using h)
      omega

theorem getWin_modifyWin (s : Sys) (j : Nat) (f : Window → Window) (i : Nat) :
    getWin (modifyWin s j f) i = if i = j then (getWin s i).map f else getWin s i := by
  unfold modifyWin getWin
  cases h : lget s.wm.winPool j with
  | none =>
    simp only [h]
    by_cases hi : i = j
    · subst hi
      rw [if_pos rfl, h]
      rfl
    · rw [if_neg hi]
  | some v =>
    simp only [h]
    by_cases hi : i = j
    · subst hi
      rw [if_pos rfl, h]
      exact lget_set_self _ _ _ (lget_some_lt _ _ _ h)
    · rw [if_neg hi]
      exact lget_set_other _ _ _ _ (fun hh => hi hh.symm)

theorem modifyWin_ds (s : Sys) (j : Nat) (f : Window → Window) :
    (modifyWin s j f).ds = s.ds := by
  unfold modifyWin
  cases lget s.wm.winPool j <;> rfl

theorem winProj_sysMarkDirty (s : Sys) (x y : Int) (w h : Nat) (i : Nat) :
    winProj (sysMarkDirty s x y w h) i = winProj s i := rfl

theorem winProj_setDs (s : Sys) (d : DsState) (i : Nat) :
    winProj { s with ds := d } i = winProj s i := rfl

theorem winProj_modifyWin_neutral (s : Sys) (j : Nat) (f : Window → Window) (i : Nat)
    (hf : ∀ v, wset (f v) = wset v) :
    winProj (modifyWin s j f) i = winProj s i := by
  unfold winProj
  rw [getWin_modifyWin]
  by_cases hi : i = j
  · rw [if_pos hi]
    cases getWin s i with
    | none => rfl
    | some v => simp [hf]
  · rw [if_neg hi]

theorem winProj_modifyWin_inv (s : Sys) (j i : Nat) :
    winProj (modifyWin s j (fun v => { v with invalidated := true })) i = winProj s i :=
  winProj_modifyWin_neutral _ _ _ _ (fun v => rfl)

theorem winProj_modifyWin_z (s : Sys) (j : Nat) (z : Int) (i : Nat) :
    winProj (modifyWin s j (fun v => { v with zOrder := z })) i = winProj s i :=
  winProj_modifyWin_neutral _ _ _ _ (fun v => rfl)

theorem winProj_modifyWin_focus (s : Sys) (j : Nat) (b : Bool) (i : Nat) :
    winProj (modifyWin s j (fun v => { v with focused := b, invalidated := true })) i =
      winProj s i :=
  winProj_modifyWin_neutral _ _ _ _ (fun v => rfl)

theorem winProj_modifyWin_minz (s : Sys) (j : Nat) (z : Int) (i : Nat) :
    winProj (modifyWin s j (fun v => { v with minimized := false, zOrder := z })) i =
      winProj s i :=
  winProj_modifyWin_neutral _ _ _ _ (fun v => rfl)

theorem winProj_modifyWin_min (s : Sys) (j i : Nat) :
    winProj (modifyWin s j (fun v => { v with minimized := false })) i = winProj s i :=
  winProj_modifyWin_neutral _ _ _ _ (fun v => rfl)

theorem poolDims_markDirty (d : DsState) (x y : Int) (w h : Nat) (i : Nat) :
    poolDims (dsMarkDirty d x y w h) i = poolDims d i := rfl

theorem poolDims_setZ (d : DsState) (sid : Nat) (z : Int) (i : Nat) :
    poolDims (dsSetSurfaceZOrder d sid z) i = poolDims d i := by
  unfold dsSetSurfaceZOrder
  cases h : lget d.pool sid with
  | none => rfl
  | some sf =>
    unfold poolDims dsMarkDirty
    by_cases hi : i = sid
    · subst hi
      rw [lget_set_self _ _ _ (lget_some_lt _ _ _ h), h]
      rfl
    · rw [lget_set_other _ _ _ _ (fun hh => hi hh.symm)]

theorem poolDims_setPos (d : DsState) (sid : Nat) (x y : Int) (i : Nat) :
    poolDims (dsSetSurfacePosition d sid x y) i = poolDims d i := by
  unfold dsSetSurfacePosition
  cases h : lget d.pool sid with
  | none => rfl
  | some sf =>
    unfold poolDims dsMarkDirty
    by_cases hi : i = sid
    · subst hi
      rw [lget_set_self _ _ _ (lget_some_lt _ _ _ h), h]
      rfl
    · rw [lget_set_other _ _ _ _ (fun hh => hi hh.symm)]

theorem dsSetSurfaceSize_lget (d : DsState) (sid : Nat) (wd ht : Nat) (sf : Surface)
    (h : lget d.pool sid = some sf) (hfit : ¬ 800 * 600 < (wd * ht) % 2 ^ 32) :
    lget (dsSetSurfaceSize d sid wd ht).pool sid =
      some { sf with width := wd, height := ht } := by
  unfold dsSetSurfaceSize
  simp only [h, if_neg hfit]
  unfold dsMarkDirty
  exact lget_set_self _ _ _ (lget_some_lt _ _ _ h)

theorem poolDims_modifyWin (s : Sys) (j : Nat) (f : Window → Window) (i : Nat) :
    poolDims (modifyWin s j f).ds i = poolDims s.ds i := by
  rw [modifyWin_ds]

theorem poolDims_sysMarkDirty (s : Sys) (x y : Int) (w h : Nat) (i : Nat) :
    poolDims (sysMarkDirty s x y w h).ds i = poolDims s.ds i := rfl

theorem winProj_setFocused (t : Sys) (fw : Option Nat) (i : Nat) :
    winProj { t with wm := { t.wm with focusedWindow := fw } } i = winProj t i := rfl

theorem winProj_setNextZ (t : Sys) (z : Int) (i : Nat) :
    winProj { t with wm := { t.wm with nextZ := z } } i = winProj t i := rfl

theorem poolDims_setFocused (t : Sys) (fw : Option Nat) (i : Nat) :
    poolDims { t with wm := { t.wm with focusedWindow := fw } }.ds i = poolDims t.ds i := rfl

theorem poolDims_setNextZ (t : Sys) (z : Int) (i : Nat) :
    poolDims { t with wm := { t.wm with nextZ := z } }.ds i = poolDims t.ds i := rfl

theorem bringToFront_winProj (s : Sys) (w i : Nat) :
    winProj (bringToFront s w) i = winProj s i := by
  unfold bringToFront
  by_cases hw : w ∈ s.wm.order
  · rw [if_pos hw]
    dsimp only
    cases hg : getWin { s with wm := { s.wm with order := s.wm.order.erase w ++ [w] } } w with
    | none => simp only [hg]; rfl
    | some win =>
      simp only [hg]
      rw [winProj_sysMarkDirty, winProj_modifyWin_inv, winProj_setDs, winProj_modifyWin_z]
      rfl
  · rw [if_neg hw]

theorem bringToFront_poolDims (s : Sys) (w i : Nat) :
    poolDims (bringToFront s w).ds i = poolDims s.ds i := by
  unfold bringToFront
  by_cases hw : w ∈ s.wm.order
  · rw [if_pos hw]
    dsimp only
    cases hg : getWin { s with wm := { s.wm with order := s.wm.order.erase w ++ [w] } } w with
    | none => simp only [hg]
    | some win =>
      simp only [hg]
      rw [poolDims_sysMarkDirty, poolDims_modifyWin]
      show poolDims (dsSetSurfaceZOrder _ _ _) i = _
      rw [poolDims_setZ, poolDims_modifyWin]
  · rw [if_neg hw]

theorem focusDance_winProj (s : Sys) (w i : Nat) :
    winProj (focusDance s w) i = winProj s i := by
  unfold focusDance
  have hstep : ∀ t : Sys, winProj (modifyWin { t with wm := { t.wm with focusedWindow := some w } }
      w (fun v => { v with focused := true, invalidated := true })) i = winProj t i := by
    intro t
    rw [winProj_modifyWin_focus]
    rfl
  cases hF : s.wm.focusedWindow with
  | none => simp only [hF]; exact hstep s
  | some old =>
    simp only [hF]
    by_cases ho : old ≠ w
    · rw [if_pos ho]
      cases hg : getWin s old with
      | some ow =>
        simp only [hg]
        exact (hstep _).trans (by rw [winProj_sysMarkDirty, winProj_modifyWin_focus])
      | none => simp only [hg]; exact hstep s
    · rw [if_neg ho]; exact hstep s

theorem focusDance_poolDims (s : Sys) (w i : Nat) :
    poolDims (focusDance s w).ds i = poolDims s.ds i := by
  unfold focusDance
  have hstep : ∀ t : Sys, poolDims (modifyWin { t with wm := { t.wm with focusedWindow := some w } }
      w (fun v => { v with focused := true, invalidated := true })).ds i = poolDims t.ds i := by
    intro t
    rw [poolDims_modifyWin]
  cases hF : s.wm.focusedWindow with
  | none => simp only [hF]; exact hstep s
  | some old =>
    simp only [hF]
    by_cases ho : old ≠ w
    · rw [if_pos ho]
      cases hg : getWin s old with
      | some ow =>
        simp only [hg]
        exact (hstep _).trans (by rw [poolDims_sysMarkDirty, poolDims_modifyWin])
      | none => simp only [hg]; exact hstep s
    · rw [if_neg ho]; exact hstep s

theorem winProj_unfocus_match (t : Sys) (i : Nat) :
    winProj (match t.wm.focusedWindow with
      | some old =>
        match getWin t old with
        | some ow =>
          sysMarkDirty (modifyWin t old (fun v => { v with focused := false, invalidated := true }))
            ow.x ow.y ow.width ow.height
        | none => t
      | none => t) i = winProj t i := by
  cases t.wm.focusedWindow with
  | none => rfl
  | some old =>
    dsimp only
    cases getWin t old with
    | none => rfl
    | some ow =>
      rw [winProj_sysMarkDirty, winProj_modifyWin_focus]

theorem poolDims_unfocus_match (t : Sys) (i : Nat) :
    poolDims (match t.wm.focusedWindow with
      | some old =>
        match getWin t old with
        | some ow =>
          sysMarkDirty (modifyWin t old (fun v => { v with focused := false, invalidated := true }))
            ow.x ow.y ow.width ow.height
        | none => t
      | none => t).ds i = poolDims t.ds i := by
  cases t.wm.focusedWindow with
  | none => rfl
  | some old =>
    dsimp only
    cases getWin t old with
    | none => rfl
    | some ow =>
      rw [poolDims_sysMarkDirty, poolDims_modifyWin]

theorem restoreWindow_winProj (s : Sys) (w i : Nat) :
    winProj (restoreWindow s w) i = winProj s i := by
  unfold restoreWindow
  cases hg : getWin s w with
  | none => rfl
  | some win =>
    simp only [hg]
    by_cases hm : win.minimized
    · rw [if_neg (by simp [hm])]
      rw [bringToFront_winProj, winProj_modifyWin_focus]
      refine Eq.trans (winProj_setFocused _ _ i) ?_
      refine Eq.trans (winProj_unfocus_match _ i) ?_
      rw [winProj_sysMarkDirty]
      refine Eq.trans (winProj_setDs _ _ i) ?_
      refine Eq.trans (winProj_setNextZ _ _ i) ?_
      exact winProj_modifyWin_minz s w s.wm.nextZ i
    · rw [if_pos (by simp [hm])]

theorem restoreWindow_poolDims (s : Sys) (w i : Nat) :
    poolDims (restoreWindow s w).ds i = poolDims s.ds i := by
  unfold restoreWindow
  cases hg : getWin s w with
  | none => rfl
  | some win =>
    simp only [hg]
    by_cases hm : win.minimized
    · rw [if_neg (by simp [hm])]
      rw [bringToFront_poolDims, poolDims_modifyWin]
      refine Eq.trans (poolDims_setFocused _ _ i) ?_
      refine Eq.trans (poolDims_unfocus_match _ i) ?_
      rw [poolDims_sysMarkDirty]
      refine Eq.trans (poolDims_setZ _ _ _ i) ?_
      refine Eq.trans (poolDims_setNextZ _ _ i) ?_
      exact poolDims_modifyWin s w _ i
    · rw [if_pos (by simp [hm])]

theorem winProj_mark_match (X : Sys) (w i : Nat) :
    winProj (match getWin X w with
      | some vc => sysMarkDirty X vc.x vc.y vc.width vc.height
      | none => X) i = winProj X i := by
  cases getWin X w <;> rfl

theorem winProj_invalidate_ite (c : Prop) [Decidable c] (X : Sys) (w i : Nat) :
    winProj (if c then modifyWin X w (fun v => { v with invalidated := true }) else X) i =
      winProj X i := by
  split
  · rw [winProj_modifyWin_inv]
  · rfl

theorem maximizeFinish_winProj (s4 : Sys) (w sid : Nat) (nw nh : Nat) (px py : Int)
    (v4 : Window) (hv4 : getWin s4 w = some v4)
    (hpd : (poolDims s4.ds sid).isSome = true)
    (hfit : ¬ 800 * 600 < (nw * nh) % 2 ^ 32) :
    winProj (maximizeFinish s4 w sid nw nh px py) w =
      some (v4.x, v4.y, nw, nh, v4.origX, v4.origY, v4.origW, v4.origH, true) := by
  unfold maximizeFinish
  dsimp only
  have hsome : (poolDims (dsSetSurfacePosition (modifyWin s4 w (fun v =>
      { v with width := nw, height := nh, maximized := true, invalidated := true })).ds
      sid px py) sid).isSome = true := by
    rw [poolDims_setPos, poolDims_modifyWin]
    exact hpd
  cases h6 : lget (dsSetSurfacePosition (modifyWin s4 w (fun v =>
      { v with width := nw, height := nh, maximized := true, invalidated := true })).ds
      sid px py).pool sid with
  | none =>
    unfold poolDims at hsome
    rw [h6] at hsome
    simp at hsome
  | some sf6 =>
    have h7 := dsSetSurfaceSize_lget _ sid nw nh sf6 h6 hfit
    simp only [h7]
    rw [if_neg (by simp)]
    rw [winProj_invalidate_ite]
    refine Eq.trans (winProj_setDs _ _ _) ?_
    refine Eq.trans (winProj_mark_match _ _ _) ?_
    rw [winProj_modifyWin_min, focusDance_winProj, bringToFront_winProj]
    refine Eq.trans (winProj_setDs _ _ _) ?_
    refine Eq.trans (winProj_setDs _ _ _) ?_
    have hfin : winProj (modifyWin s4 w (fun v =>
        { v with width := nw, height := nh, maximized := true, invalidated := true })) w =
        some (v4.x, v4.y, nw, nh, v4.origX, v4.origY, v4.origW, v4.origH, true) := by
      unfold winProj
      rw [getWin_modifyWin, if_pos rfl, hv4]
      rfl
    exact hfin

theorem getWin_sysMarkDirty (s : Sys) (x y : Int) (w h : Nat) (i : Nat) :
    getWin (sysMarkDirty s x y w h) i = getWin s i := rfl

theorem maximizeTargetSize_of_fit (fbW fbH : Nat)
    (hfit : fbW * fbH ≤ 800 * 600) :
    maximizeTargetSize fbW fbH = (fbW, fbH) := by
  unfold maximizeTargetSize
  have hc : ¬ 800 * 600 < (fbW * fbH) % 2 ^ 32 := by
    have := Nat.mod_le (fbW * fbH) (2 ^ 32)
    omega
  rw [if_neg hc]
  dsimp only
  rw [if_neg hc]

theorem maximizeTargetSize_fst_of_fit (fbW fbH : Nat) (hfit : fbW * fbH ≤ 800 * 600) :
    (maximizeTargetSize fbW fbH).1 = fbW := by
  rw [maximizeTargetSize_of_fit fbW fbH hfit]

theorem maximizeTargetSize_snd_of_fit (fbW fbH : Nat) (hfit : fbW * fbH ≤ 800 * 600) :
    (maximizeTargetSize fbW fbH).2 = fbH := by
  rw [maximizeTargetSize_of_fit fbW fbH hfit]

theorem maximizeWindow_winProj (s : Sys) (w : Nat) (fb : FrameBuf) (v : Window)
    (hfb : s.ds.fb = some fb) (hv : getWin s w = some v) (hmax : v.maximized = false)
    (hW : fb.width < 2 ^ 32) (hH : fb.height < 2 ^ 32)
    (hfit : fb.width * fb.height ≤ 800 * 600)
    (hpd : (poolDims s.ds v.surfaceId).isSome = true) :
    winProj (maximizeWindow s w) w =
      some (0, 0, fb.width, fb.height, v.x, v.y, v.width, v.height, true) := by
  have hc : ¬ 800 * 600 < (fb.width * fb.height) % 2 ^ 32 := by
    have := Nat.mod_le (fb.width * fb.height) (2 ^ 32)
    omega
  unfold maximizeWindow
  simp only [hfb, hv]
  rw [if_neg (by simp [hmax])]
  rw [Nat.mod_eq_of_lt hW, Nat.mod_eq_of_lt hH]
  rw [maximizeTargetSize_fst_of_fit fb.width fb.height hfit,
      maximizeTargetSize_snd_of_fit fb.width fb.height hfit]
  rw [if_neg hc]
  have hpx : (if fb.width = fb.width ∧ fb.height = fb.height then ((0 : Int), (0 : Int))
      else (max ((u32ToI32 fb.width - u32ToI32 fb.width).tdiv 2) 0,
            max ((u32ToI32 fb.height - u32ToI32 fb.height).tdiv 2) 0)).1 = 0 := by
    simp
  have hpy : (if fb.width = fb.width ∧ fb.height = fb.height then ((0 : Int), (0 : Int))
      else (max ((u32ToI32 fb.width - u32ToI32 fb.width).tdiv 2) 0,
            max ((u32ToI32 fb.height - u32ToI32 fb.height).tdiv 2) 0)).2 = 0 := by
    simp
  rw [hpx, hpy]
  have hg3 : getWin (modifyWin (sysMarkDirty (modifyWin s w (fun v =>
      { v with origX := v.x, origY := v.y, origW := v.width, origH := v.height }))
      v.x v.y v.width v.height) w (fun v => { v with x := (0 : Int), y := (0 : Int) })) w =
      some { v with x := 0, y := 0, origX := v.x, origY := v.y, origW := v.width, origH := v.height } := by
    rw [getWin_modifyWin, if_pos rfl, getWin_sysMarkDirty, getWin_modifyWin, if_pos rfl, hv]
    rfl
  have hpd3 : (poolDims (modifyWin (sysMarkDirty (modifyWin s w (fun v =>
      { v with origX := v.x, origY := v.y, origW := v.width, origH := v.height }))
      v.x v.y v.width v.height) w (fun v =>
      { v with x := (0 : Int), y := (0 : Int) })).ds v.surfaceId).isSome = true := by
    rw [poolDims_modifyWin, poolDims_sysMarkDirty, poolDims_modifyWin]
    exact hpd
  revert hg3 hpd3
  generalize (modifyWin (sysMarkDirty (modifyWin s w (fun v =>
      { v with origX := v.x, origY := v.y, origW := v.width, origH := v.height }))
      v.x v.y v.width v.height) w (fun v => { v with x := (0 : Int), y := (0 : Int) })) = s3x
  intro hg3 hpd3
  simp only [hg3]
  by_cases hmin : v.minimized = true
  · rw [if_pos hmin]
    have hwp : winProj (restoreWindow s3x w) w =
        some (wset { v with x := 0, y := 0, origX := v.x, origY := v.y, origW := v.width, origH := v.height }) := by
      rw [restoreWindow_winProj]
      unfold winProj
      rw [hg3]
      rfl
    obtain ⟨v4, hv4, hws⟩ : ∃ v4, getWin (restoreWindow s3x w) w = some v4 ∧
        wset v4 = wset { v with x := 0, y := 0, origX := v.x, origY := v.y, origW := v.width, origH := v.height } := by
      unfold winProj at hwp
      cases hg4 : getWin (restoreWindow s3x w) w with
      | none => rw [hg4] at hwp; simp at hwp
      | some a =>
        rw [hg4] at hwp
        exact ⟨a, rfl, by simpa using hwp⟩
    have hpd4 : (poolDims (restoreWindow s3x w).ds v.surfaceId).isSome = true := by
      rw [restoreWindow_poolDims]
      exact hpd3
    rw [maximizeFinish_winProj _ _ _ _ _ _ _ _ hv4 hpd4 hc]
    unfold wset at hws
    simp only [Prod.mk.injEq] at hws
    obtain ⟨h1, h2, h3, h4, h5, h6, h7, h8, h9⟩ := hws
    rw [h1, h2, h5, h6, h7, h8]
  · rw [if_neg hmin]
    rw [maximizeFinish_winProj _ _ _ _ _ _ _ _ hg3 hpd3 hc]

theorem getWin_setDs (s : Sys) (d : DsState) (i : Nat) :
    getWin { s with ds := d } i = getWin s i := rfl

theorem unmaximizeWindow_winProj (s : Sys) (w : Nat) (v : Window)
    (hv : getWin s w = some v) (hm : v.maximized = true) :
    winProj (unmaximizeWindow s w) w =
      some (v.origX, v.origY, v.origW, v.origH, v.origX, v.origY, v.origW, v.origH, false) := by
  unfold unmaximizeWindow
  simp only [hv]
  rw [if_neg (by simp [hm])]
  rw [winProj_sysMarkDirty, winProj_modifyWin_inv]
  refine Eq.trans (winProj_setDs _ _ _) ?_
  refine Eq.trans (winProj_setDs _ _ _) ?_
  have hfin : winProj (modifyWin (sysMarkDirty s v.x v.y v.width v.height) w (fun t =>
      { t with x := t.origX, y := t.origY, width := t.origW, height := t.origH,
               maximized := false })) w =
      some (v.origX, v.origY, v.origW, v.origH, v.origX, v.origY, v.origW, v.origH, false) := by
    unfold winProj
    rw [getWin_modifyWin, if_pos rfl, getWin_sysMarkDirty, hv]
    rfl
  exact hfin

/-- Claim C7 (amended): for every window in a state where maximize does not
truncate (the framebuffer pixel count fits in MAX_SURFACE_BUFFER) and the
window is NOT already maximized, maximize followed by unmaximize restores
exactly the pre-maximize geometry.  On an already maximized window maximize
is a no-op but unmaximize still fires, restoring the older saved geometry
instead (see the counterexample). -/
theorem c7_maximize_unmaximize_roundtrip (s : Sys) (w : Nat) (fb : FrameBuf) (v : Window)
    (hfb : s.ds.fb = some fb) (hv : getWin s w = some v) (hmax : v.maximized = false)
    (hW : fb.width < 2 ^ 32) (hH : fb.height < 2 ^ 32)
    (hfit : fb.width * fb.height ≤ 800 * 600)
    (hpd : (poolDims s.ds v.surfaceId).isSome = true) :
    winGeom (unmaximizeWindow (maximizeWindow s w) w) w = (v.x, v.y, v.width, v.height) := by
  have h1 := maximizeWindow_winProj s w fb v hfb hv hmax hW hH hfit hpd
  obtain ⟨v2, hv2, hws⟩ : ∃ v2, getWin (maximizeWindow s w) w = some v2 ∧
      wset v2 = (0, 0, fb.width, fb.height, v.x, v.y, v.width, v.height, true) := by
    unfold winProj at h1
    cases hg : getWin (maximizeWindow s w) w with
    | none => rw [hg] at h1; simp at h1
    | some a =>
      rw [hg] at h1
      exact ⟨a, rfl, by simpa using h1⟩
  unfold wset at hws
  simp only [Prod.mk.injEq] at hws
  obtain ⟨e1, e2, e3, e4, e5, e6, e7, e8, e9⟩ := hws
  have h2 := unmaximizeWindow_winProj (maximizeWindow s w) w v2 hv2 e9
  obtain ⟨v3, hv3, hws3⟩ : ∃ v3, getWin (unmaximizeWindow (maximizeWindow s w) w) w = some v3 ∧
      wset v3 = (v2.origX, v2.origY, v2.origW, v2.origH,
                 v2.origX, v2.origY, v2.origW, v2.origH, false) := by
    unfold winProj at h2
    cases hg : getWin (unmaximizeWindow (maximizeWindow s w) w) w with
    | none => rw [hg] at h2; simp at h2
    | some a =>
      rw [hg] at h2
      exact ⟨a, rfl, by simpa using h2⟩
  unfold wset at hws3
  simp only [Prod.mk.injEq] at hws3
  obtain ⟨f1, f2, f3, f4, _⟩ := hws3
  unfold winGeom
  simp only [hv3]
  rw [f1, f2, f3, f4, e5, e6, e7, e8]

/-- Witness: the roundtrip theorem applied to a concrete 300 by 200 window on
the 800 by 600 framebuffer, all hypotheses discharged by evaluation. -/
theorem c7_maximize_unmaximize_roundtrip_witness :
    ((createWindow (sysInit (some fbB) false) [] 10 20 300 200 7).1.ds.fb = some fbB ∧
      fbB.width < 2 ^ 32 ∧ fbB.height < 2 ^ 32 ∧ fbB.width * fbB.height ≤ 800 * 600) ∧
    winGeom (unmaximizeWindow (maximizeWindow
        (createWindow (sysInit (some fbB) false) [] 10 20 300 200 7).1 0) 0) 0 =
      (10, 20, 300, 200) :=
  ⟨⟨by decide, by decide, by decide, by decide⟩,
    c7_maximize_unmaximize_roundtrip (createWindow (sysInit (some fbB) false) [] 10 20 300 200 7).1
      0 fbB
      { x := 10, y := 20, width := 300, height := 200, title := [], flags := 7,
        focused := true, invalidated := true, surfaceId := 0, zOrder := 1,
        minimized := false, maximized := false,
        origX := 10, origY := 20, origW := 300, origH := 200 }
      (by decide) (by decide) (by decide) (by decide) (by decide) (by decide) (by decide)⟩

/-- Mouse-position preservation lemmas: every display-server and
window-manager operation except update_cursor_position leaves the desired
cursor position unchanged. -/

theorem mouseOf_markDirty (d : DsState) (x y : Int) (w h : Nat) :
    mouseOf (dsMarkDirty d x y w h) = mouseOf d := rfl

theorem mouseOf_update (d : DsState) (x y : Int) :
    mouseOf (dsUpdateCursorPosition d x y) = (x, y) := rfl

theorem mouseOf_destroy (d : DsState) (sid : Nat) :
    mouseOf (dsDestroySurface d sid) = mouseOf d := by
  unfold dsDestroySurface
  cases h : lget d.pool sid with
  | none => rfl
  | some sf =>
    simp only [h]
    split <;> rfl

theorem mouseOf_setPos (d : DsState) (sid : Nat) (x y : Int) :
    mouseOf (dsSetSurfacePosition d sid x y) = mouseOf d := by
  unfold dsSetSurfacePosition
  cases h : lget d.pool sid with
  | none => rfl
  | some sf => simp only [h]; rfl

theorem mouseOf_setSize (d : DsState) (sid : Nat) (w h : Nat) :
    mouseOf (dsSetSurfaceSize d sid w h) = mouseOf d := by
  unfold dsSetSurfaceSize
  cases hs : lget d.pool sid with
  | none => rfl
  | some sf =>
    simp only [hs]
    split <;> rfl

theorem mouseOf_setZ (d : DsState) (sid : Nat) (z : Int) :
    mouseOf (dsSetSurfaceZOrder d sid z) = mouseOf d := by
  unfold dsSetSurfaceZOrder
  cases h : lget d.pool sid with
  | none => rfl
  | some sf => simp only [h]; rfl

theorem mouseOf_renderCursor (d : DsState) :
    mouseOf (dsRenderCursor d) = mouseOf d := by
  unfold dsRenderCursor
  dsimp only
  split <;> split <;> rfl

theorem mouseOf_renderSurfaces (d : DsState) (r : DirtyRect) :
    mouseOf (dsRenderSurfaces d r) = mouseOf d := by
  unfold dsRenderSurfaces
  split
  · have hfold : ∀ (l : List Nat) (st : DsState),
        mouseOf (List.foldl (fun st sid =>
          match lget st.pool sid with
          | none => st
          | some sf =>
            if surfaceOverlapsDirty sf r then
              let bb := renderSurfaceToBackbuffer st.backbuffer st.backbufferW st.backbufferH sf.x sf.y sf.width sf.height (st.bufs sid)
              { st with backbuffer := bb }
            else st) st l) = mouseOf st := by
      intro l
      induction l with
      | nil => intro st; rfl
      | cons a t ih =>
        intro st
        rw [List.foldl_cons, ih]
        cases h : lget st.pool a with
        | none => rfl
        | some sf =>
          simp only [h]
          split <;> rfl
    exact hfold d.order d
  · rfl

theorem mouseOf_renderMerge (d : DsState) (r : DirtyRect) :
    mouseOf (dsRenderMerge d r) = mouseOf d := by
  unfold dsRenderMerge
  split
  · split <;> rfl
  · rfl

theorem mouse_setDirty (t : DsState) (r : DirtyRect) :
    mouseOf { t with dirty := r } = mouseOf t := rfl

theorem mouse_setFbMem (t : DsState) (m : Nat → Nat) :
    mouseOf { t with fbMem := m } = mouseOf t := rfl

theorem mouse_setBackbuffer (t : DsState) (bb : Nat → Nat) :
    mouseOf { t with backbuffer := bb } = mouseOf t := rfl

theorem mouse_stage2 (t : DsState) (bb : Nat → Nat) (r : DirtyRect) :
    mouseOf { t with backbuffer := bb, desktopCleared := true, fullRedraw := false,
                     dirty := r } = mouseOf t := rfl

theorem mouse_stage1 (t : DsState) (a b : Nat) :
    mouseOf { t with backbufferW := a, backbufferH := b, backbufferInitialized := true,
                     fullRedraw := true } = mouseOf t := rfl

theorem dsRenderMerge_mouseX (d : DsState) (r : DirtyRect) :
    (dsRenderMerge d r).mouseX = d.mouseX := congrArg Prod.fst (mouseOf_renderMerge d r)

theorem dsRenderMerge_mouseY (d : DsState) (r : DirtyRect) :
    (dsRenderMerge d r).mouseY = d.mouseY := congrArg Prod.snd (mouseOf_renderMerge d r)

theorem dsRenderCursor_mouseX (d : DsState) :
    (dsRenderCursor d).mouseX = d.mouseX := congrArg Prod.fst (mouseOf_renderCursor d)

theorem dsRenderCursor_mouseY (d : DsState) :
    (dsRenderCursor d).mouseY = d.mouseY := congrArg Prod.snd (mouseOf_renderCursor d)

theorem dsRenderSurfaces_mouseX (d : DsState) (r : DirtyRect) :
    (dsRenderSurfaces d r).mouseX = d.mouseX := congrArg Prod.fst (mouseOf_renderSurfaces d r)

theorem dsRenderSurfaces_mouseY (d : DsState) (r : DirtyRect) :
    (dsRenderSurfaces d r).mouseY = d.mouseY := congrArg Prod.snd (mouseOf_renderSurfaces d r)

theorem mouseOf_render (d : DsState) :
    mouseOf (dsRender d) = mouseOf d := by
  unfold dsRender
  cases h : d.fb with
  | none => rfl
  | some fb =>
    simp only [h]
    unfold mouseOf
    simp only [apply_ite DsState.mouseX, apply_ite DsState.mouseY,
      dsRenderMerge_mouseX, dsRenderMerge_mouseY, dsRenderCursor_mouseX, dsRenderCursor_mouseY,
      dsRenderSurfaces_mouseX, dsRenderSurfaces_mouseY, ite_self]

theorem mouse_setWm (t : Sys) (X : WmState) :
    mouseOf { t with wm := X }.ds = mouseOf t.ds := rfl

theorem mouse_sysMarkDirty (s : Sys) (x y : Int) (w h : Nat) :
    mouseOf (sysMarkDirty s x y w h).ds = mouseOf s.ds := rfl

theorem mouse_modifyWin (s : Sys) (j : Nat) (f : Window → Window) :
    mouseOf (modifyWin s j f).ds = mouseOf s.ds := by
  rw [modifyWin_ds]

theorem mouse_unfocus_match (t : Sys) :
    mouseOf (match t.wm.focusedWindow with
      | some old =>
        match getWin t old with
        | some ow =>
          sysMarkDirty (modifyWin t old (fun v => { v with focused := false, invalidated := true }))
            ow.x ow.y ow.width ow.height
        | none => t
      | none => t).ds = mouseOf t.ds := by
  cases t.wm.focusedWindow with
  | none => rfl
  | some old =>
    dsimp only
    cases getWin t old with
    | none => rfl
    | some ow =>
      rw [mouse_sysMarkDirty, mouse_modifyWin]

theorem bringToFront_mouse (s : Sys) (w : Nat) :
    mouseOf (bringToFront s w).ds = mouseOf s.ds := by
  unfold bringToFront
  by_cases hw : w ∈ s.wm.order
  · rw [if_pos hw]
    dsimp only
    cases hg : getWin { s with wm := { s.wm with order := s.wm.order.erase w ++ [w] } } w with
    | none => simp only [hg]
    | some win =>
      simp only [hg]
      rw [mouse_sysMarkDirty, mouse_modifyWin]
      refine Eq.trans (mouseOf_setZ _ _ _) ?_
      rw [mouse_modifyWin]
  · rw [if_neg hw]

theorem focusDance_mouse (s : Sys) (w : Nat) :
    mouseOf (focusDance s w).ds = mouseOf s.ds := by
  unfold focusDance
  have hstep : ∀ t : Sys, mouseOf (modifyWin { t with wm := { t.wm with focusedWindow := some w } }
      w (fun v => { v with focused := true, invalidated := true })).ds = mouseOf t.ds := by
    intro t
    rw [mouse_modifyWin]
  cases hF : s.wm.focusedWindow with
  | none => simp only [hF]; exact hstep s
  | some old =>
    simp only [hF]
    by_cases ho : old ≠ w
    · rw [if_pos ho]
      cases hg : getWin s old with
      | some ow =>
        simp only [hg]
        exact (hstep _).trans (by rw [mouse_sysMarkDirty, mouse_modifyWin])
      | none => simp only [hg]; exact hstep s
    · rw [if_neg ho]; exact hstep s

theorem restoreWindow_mouse (s : Sys) (w : Nat) :
    mouseOf (restoreWindow s w).ds = mouseOf s.ds := by
  unfold restoreWindow
  cases hg : getWin s w with
  | none => rfl
  | some win =>
    simp only [hg]
    by_cases hm : win.minimized
    · rw [if_neg (by simp [hm])]
      rw [bringToFront_mouse, mouse_modifyWin]
      refine Eq.trans (mouse_setWm _ _) ?_
      refine Eq.trans (mouse_unfocus_match _) ?_
      rw [mouse_sysMarkDirty]
      refine Eq.trans (mouseOf_setZ _ _ _) ?_
      refine Eq.trans (mouse_setWm _ _) ?_
      exact mouse_modifyWin s w _
    · rw [if_pos (by simp [hm])]

theorem invalidateWindow_mouse (s : Sys) (w : Nat) :
    mouseOf (invalidateWindow s w).ds = mouseOf s.ds := by
  unfold invalidateWindow
  cases hg : getWin s w with
  | none => rfl
  | some win =>
    simp only [hg]
    rw [mouse_sysMarkDirty, mouse_modifyWin]

theorem minimizeWindow_mouse (s : Sys) (w : Nat) :
    mouseOf (minimizeWindow s w).ds = mouseOf s.ds := by
  unfold minimizeWindow
  cases hg : getWin s w with
  | none => rfl
  | some win =>
    simp only [hg]
    split
    · rfl
    · split
      · refine Eq.trans (mouse_modifyWin _ _ _) ?_
        refine Eq.trans (mouse_sysMarkDirty _ _ _ _ _) ?_
        refine Eq.trans (mouseOf_setZ _ _ _) ?_
        exact mouse_modifyWin _ _ _
      · refine Eq.trans (mouse_sysMarkDirty _ _ _ _ _) ?_
        refine Eq.trans (mouseOf_setZ _ _ _) ?_
        exact mouse_modifyWin _ _ _

theorem destroyWindow_mouse (s : Sys) (w : Nat) :
    mouseOf (destroyWindow s w).ds = mouseOf s.ds := by
  unfold destroyWindow
  cases hg : getWin s w with
  | none => rfl
  | some win =>
    simp only [hg]
    split <;> (repeat' split) <;>
      exact Eq.trans (mouseOf_destroy _ _) (mouse_sysMarkDirty _ _ _ _ _)

theorem mouse_maxS7 (s4 : Sys) (w sid nw nh : Nat) (px py : Int) :
    mouseOf (dsSetSurfaceSize (dsSetSurfacePosition (modifyWin s4 w (fun v =>
      { v with width := nw, height := nh, maximized := true, invalidated := true })).ds
      sid px py) sid nw nh) = mouseOf s4.ds := by
  refine Eq.trans (mouseOf_setSize _ _ _ _) ?_
  refine Eq.trans (mouseOf_setPos _ _ _ _) ?_
  exact mouse_modifyWin _ _ _

theorem maximizeFinish_mouse (s4 : Sys) (w sid nw nh : Nat) (px py : Int) :
    mouseOf (maximizeFinish s4 w sid nw nh px py).ds = mouseOf s4.ds := by
  unfold maximizeFinish
  dsimp only
  split
  · exact mouse_maxS7 s4 w sid nw nh px py
  · split
    · split
      · refine Eq.trans (mouse_modifyWin _ _ _) ?_
        exact mouse_maxS7 s4 w sid nw nh px py
      · refine Eq.trans (mouse_modifyWin _ _ _) ?_
        refine Eq.trans (mouseOf_setPos _ _ _ _) ?_
        refine Eq.trans (mouseOf_setSize _ _ _ _) ?_
        refine Eq.trans (mouse_modifyWin _ _ _) ?_
        exact mouse_maxS7 s4 w sid nw nh px py
    · split
      · refine Eq.trans (mouse_modifyWin _ _ _) ?_
        refine Eq.trans (mouseOf_render _) ?_
        split
        · refine Eq.trans (mouse_sysMarkDirty _ _ _ _ _) ?_
          refine Eq.trans (mouse_modifyWin _ _ _) ?_
          rw [focusDance_mouse, bringToFront_mouse]
          exact mouse_maxS7 s4 w sid nw nh px py
        · refine Eq.trans (mouse_modifyWin _ _ _) ?_
          rw [focusDance_mouse, bringToFront_mouse]
          exact mouse_maxS7 s4 w sid nw nh px py
      · refine Eq.trans (mouseOf_render _) ?_
        split
        · refine Eq.trans (mouse_sysMarkDirty _ _ _ _ _) ?_
          refine Eq.trans (mouse_modifyWin _ _ _) ?_
          rw [focusDance_mouse, bringToFront_mouse]
          exact mouse_maxS7 s4 w sid nw nh px py
        · refine Eq.trans (mouse_modifyWin _ _ _) ?_
          rw [focusDance_mouse, bringToFront_mouse]
          exact mouse_maxS7 s4 w sid nw nh px py

theorem maximizeWindow_mouse (s : Sys) (w : Nat) :
    mouseOf (maximizeWindow s w).ds = mouseOf s.ds := by
  unfold maximizeWindow
  cases hfb : s.ds.fb with
  | none => rfl
  | some fb =>
    simp only [hfb]
    cases hg : getWin s w with
    | none => rfl
    | some win =>
      simp only [hg]
      split
      · rfl
      · try dsimp only
        split
        · refine Eq.trans (mouse_modifyWin _ _ _) ?_
          refine Eq.trans (mouse_sysMarkDirty _ _ _ _ _) ?_
          exact mouse_modifyWin _ _ _
        · rw [maximizeFinish_mouse]
          (repeat' split) <;>
            first
            | (rw [restoreWindow_mouse]
               refine Eq.trans (mouse_modifyWin _ _ _) ?_
               refine Eq.trans (mouse_sysMarkDirty _ _ _ _ _) ?_
               exact mouse_modifyWin _ _ _)
            | (refine Eq.trans (mouse_modifyWin _ _ _) ?_
               refine Eq.trans (mouse_sysMarkDirty _ _ _ _ _) ?_
               exact mouse_modifyWin _ _ _)

theorem unmaximizeWindow_mouse (s : Sys) (w : Nat) :
    mouseOf (unmaximizeWindow s w).ds = mouseOf s.ds := by
  unfold unmaximizeWindow
  cases hg : getWin s w with
  | none => rfl
  | some win =>
    simp only [hg]
    split
    · rfl
    · refine Eq.trans (mouse_sysMarkDirty _ _ _ _ _) ?_
      refine Eq.trans (mouse_modifyWin _ _ _) ?_
      refine Eq.trans (mouseOf_setPos _ _ _ _) ?_
      refine Eq.trans (mouseOf_setSize _ _ _ _) ?_
      refine Eq.trans (mouse_modifyWin _ _ _) ?_
      exact mouse_sysMarkDirty _ _ _ _ _

theorem dispatchClick_mouse (s : Sys) (mx my : Int) (l : List Nat) :
    mouseOf (dispatchClick s mx my l).ds = mouseOf s.ds := by
  induction l with
  | nil => rfl
  | cons w rest ih =>
    unfold dispatchClick
    cases hg : getWin s w with
    | none => simp only [hg]; exact ih
    | some win =>
      simp only [hg]
      try dsimp only
      (repeat' split) <;>
        first
        | exact ih
        | (rw [bringToFront_mouse, focusDance_mouse])
        | exact destroyWindow_mouse _ _
        | exact unmaximizeWindow_mouse _ _
        | exact maximizeWindow_mouse _ _
        | exact minimizeWindow_mouse _ _
        | (rw [bringToFront_mouse]
           refine Eq.trans (mouse_sysMarkDirty _ _ _ _ _) ?_
           exact focusDance_mouse _ _)

theorem ds_ite (c : Prop) [Decidable c] (a b : Sys) :
    (if c then a else b).ds = if c then a.ds else b.ds := by
  split <;> rfl

theorem resizeContinue_mouse (s : Sys) (rwin : Nat) (mx my : Int) :
    mouseOf (resizeContinue s rwin mx my).ds = mouseOf s.ds := by
  unfold resizeContinue
  cases hfb : s.ds.fb with
  | none => rfl
  | some fb =>
    simp only [hfb]
    cases hg : getWin s rwin with
    | none => rfl
    | some win =>
      simp only [hg]
      simp only [ds_ite, apply_ite mouseOf, mouse_sysMarkDirty, mouse_modifyWin,
        mouseOf_setPos, mouseOf_setSize, mouseOf_setZ, mouseOf_render, ite_self]

theorem dragContinue_mouse (s : Sys) (dw : Nat) (mx my : Int) :
    mouseOf (dragContinue s dw mx my).ds = mouseOf s.ds := by
  unfold dragContinue
  cases hg : getWin s dw with
  | none => rfl
  | some win =>
    simp only [hg]
    simp only [ds_ite, apply_ite mouseOf, mouse_sysMarkDirty, mouse_modifyWin,
      mouseOf_setPos, mouseOf_setSize, mouseOf_setZ, mouseOf_render, ite_self]

/-- Claim C10: while a drag or resize is in progress and the left button is
still held, handle_mouse does not forward the mouse position to the display
server, so the desired cursor position stays frozen; on release and in every
call with no drag or resize in progress the position (mx, my) is forwarded
(ds_update_cursor_position runs before any click dispatch, and no operation
reachable from handle_mouse writes the desired position afterwards). -/
theorem c10_cursor_forwarding (s : Sys) (mx my : Int) (left : Bool) :
    ((s.wm.resizingWindow ≠ none ∨ s.wm.draggingWindow ≠ none) → left = true →
      mouseOf (handleMouse s mx my left).ds = mouseOf s.ds) ∧
    ((s.wm.resizingWindow = none ∧ s.wm.draggingWindow = none) ∨ left = false →
      mouseOf (handleMouse s mx my left).ds = (mx, my)) := by
  unfold handleMouse
  cases hr : s.wm.resizingWindow with
  | some rwin =>
    simp only [hr]
    cases left with
    | true =>
      constructor
      · intro _ _
        rw [if_pos rfl]
        rw [resizeContinue_mouse]
      · intro h
        rcases h with ⟨h1, h2⟩ | hfalse
        · exact Option.noConfusion h1
        · exact Bool.noConfusion hfalse
    | false =>
      constructor
      · intro _ hcontra
        exact Bool.noConfusion hcontra
      · intro _
        rw [if_neg (by simp)]
        exact mouseOf_update _ mx my
  | none =>
    simp only [hr]
    cases hd : s.wm.draggingWindow with
    | some dw =>
      simp only [hd]
      cases left with
      | true =>
        constructor
        · intro _ _
          rw [if_pos rfl]
          rw [dragContinue_mouse]
        · intro h
          rcases h with ⟨h1, h2⟩ | hfalse
          · exact Option.noConfusion h2
          · exact Bool.noConfusion hfalse
      | false =>
        constructor
        · intro _ hcontra
          exact Bool.noConfusion hcontra
        · intro _
          rw [if_neg (by simp)]
          exact mouseOf_update _ mx my
    | none =>
      simp only [hd]
      constructor
      · intro habs _
        rcases habs with h1 | h2
        · exact absurd rfl h1
        · exact absurd rfl h2
      · intro _
        split
        · rw [dispatchClick_mouse]
          exact mouseOf_update _ mx my
        · exact mouseOf_update _ mx my

/-- Witness: the forwarding theorem applied to the concrete resize-in-progress
trace, with the antecedents discharged by evaluation. -/
theorem c10_cursor_forwarding_witness :
    (c10Resizing.wm.resizingWindow ≠ none ∨ c10Resizing.wm.draggingWindow ≠ none) ∧
    mouseOf (handleMouse c10Resizing 300 300 true).ds = mouseOf c10Resizing.ds ∧
    mouseOf (handleMouse c10Resizing 300 300 false).ds = (300, 300) :=
  ⟨by decide,
    (c10_cursor_forwarding c10Resizing 300 300 true).1 (by decide) rfl,
    (c10_cursor_forwarding c10Resizing 300 300 false).2 (Or.inr rfl)⟩
